import Mathlib

/-!
Verification development for the dides rolling-deployment coordinator.

The definitions below are a shallow embedding of the Go sources:
  internal/inventory/model.go            (Instance, State, Status, InstancePatch)
  internal/infra/in-memory/inventory.go  (InventoryStore and its queries)
  internal/deployment/model.go           (DeploymentRecord, DeploymentRequest, ...)
  internal/deployment/rolling_deployment.go (RollingDeployment strategy)
  internal/deployment/trigger.go         (TriggerService)
  the in-memory Locker                   (InMemoryLocker)
Go maps are modelled as insertion-ordered association lists, machine ints as
Int (progress counters) and Nat (cardinalities returned by the count queries).
-/

set_option maxHeartbeats 1000000
set_option linter.unnecessarySeqFocus false

namespace Dides

/-- Label maps (Go `map[string]string`) as insertion-ordered association lists. -/
abbrev LabelMap := List (String × String)

/-- Health status of an instance (inventory/model.go): UNKNOWN=0, HEALTHY=1, FAILED=2. -/
inductive Status where
  | UNKNOWN
  | HEALTHY
  | FAILED
deriving DecidableEq

/-- A (code_version, configuration_version) pair (inventory/model.go `State`). -/
structure State where
  codeVersion : String
  configurationVersion : String
deriving DecidableEq

/-- A managed instance (inventory/model.go `Instance`); `LastPing` is modelled as a Nat. -/
structure Instance where
  ip : String
  name : String
  labels : LabelMap
  lastPing : Nat
  status : Status
  currentState : State
  desiredState : State
deriving DecidableEq

/-- Sparse patch applied by `InventoryStore.Update` (inventory/model.go `InstancePatch`). -/
structure InstancePatch where
  labels : Option LabelMap
  lastPing : Option Nat
  status : Option Status
  currentState : Option State
  desiredState : Option State
deriving DecidableEq

/-- Key lookup in an association list, mirroring Go map indexing. -/
def lookupKV : LabelMap → String → Option String
  | [], _ => none
  | (k2, v) :: rest, k => if k2 == k then some v else lookupKV rest k

/-- InventoryStore.matchesLabels: the instance has every (key, value) of the selector.
An empty selector matches every instance (the Go nil-map special case coincides
with the loop semantics for association lists). -/
def matchesLabels (i : Instance) (labels : LabelMap) : Bool :=
  labels.all (fun kv => lookupKV i.labels kv.1 == some kv.2)

/-- InventoryStore.needsUpdate: the current state differs from the target state.
Note the source checks only `CurrentState`, never `DesiredState`. -/
def needsUpdate (i : Instance) (desiredState : State) : Bool :=
  !(i.currentState.codeVersion == desiredState.codeVersion) ||
    !(i.currentState.configurationVersion == desiredState.configurationVersion)

/-- InventoryStore.isCompleted: current state equals the target and status is HEALTHY. -/
def isCompleted (i : Instance) (desiredState : State) : Bool :=
  i.currentState.codeVersion == desiredState.codeVersion &&
    i.currentState.configurationVersion == desiredState.configurationVersion &&
    i.status == Status.HEALTHY

/-- InventoryStore.isFailed: desired state equals the target and status is FAILED. -/
def isFailed (i : Instance) (desiredState : State) : Bool :=
  i.desiredState.codeVersion == desiredState.codeVersion &&
    i.desiredState.configurationVersion == desiredState.configurationVersion &&
    i.status == Status.FAILED

/-- InventoryStore.isInProgress: desired state equals the target but the current
state has not caught up. -/
def isInProgress (i : Instance) (desiredState : State) : Bool :=
  let hasDesiredState :=
    i.desiredState.codeVersion == desiredState.codeVersion &&
      i.desiredState.configurationVersion == desiredState.configurationVersion
  let stillNeedsUpdate :=
    !(i.currentState.codeVersion == desiredState.codeVersion) ||
      !(i.currentState.configurationVersion == desiredState.configurationVersion)
  hasDesiredState && stillNeedsUpdate

/-- Options of the GetNeedingUpdate query (inventory/model.go); Limit is a Go int. -/
structure GetNeedingUpdateOptions where
  limit : Int
deriving DecidableEq

/-- The collecting loop of InventoryStore.GetNeedingUpdate: append every matching
instance, stopping once the accumulated batch reaches `maxResults` (when positive). -/
def getNeedingUpdateAux (instances : List Instance) (labels : LabelMap)
    (desiredState : State) (maxResults : Int) (acc : List Instance) : List Instance :=
  match instances with
  | [] => acc
  | i :: rest =>
    if matchesLabels i labels && needsUpdate i desiredState then
      let acc2 := acc ++ [i]
      if maxResults > 0 && (acc2.length : Int) ≥ maxResults then acc2
      else getNeedingUpdateAux rest labels desiredState maxResults acc2
    else getNeedingUpdateAux rest labels desiredState maxResults acc

/-- InventoryStore.GetNeedingUpdate: instances matching the labels for which
`needsUpdate` holds, truncated to `opts.Limit` when that limit is positive
(`maxResults = -1`, i.e. no limit, otherwise). -/
def getNeedingUpdate (store : List Instance) (labels : LabelMap) (desiredState : State)
    (opts : Option GetNeedingUpdateOptions) : List Instance :=
  let maxResults : Int :=
    match opts with
    | some o => if o.limit > 0 then o.limit else -1
    | none => -1
  getNeedingUpdateAux store labels desiredState maxResults []

/-- InventoryStore.CountByLabels. -/
def countByLabels (store : List Instance) (labels : LabelMap) : Nat :=
  (store.filter (fun i => matchesLabels i labels)).length

/-- InventoryStore.CountNeedingUpdate. -/
def countNeedingUpdate (store : List Instance) (labels : LabelMap) (desiredState : State) : Nat :=
  (store.filter (fun i => matchesLabels i labels && needsUpdate i desiredState)).length

/-- InventoryStore.CountCompleted. -/
def countCompleted (store : List Instance) (labels : LabelMap) (desiredState : State) : Nat :=
  (store.filter (fun i => matchesLabels i labels && isCompleted i desiredState)).length

/-- InventoryStore.CountFailed. -/
def countFailed (store : List Instance) (labels : LabelMap) (desiredState : State) : Nat :=
  (store.filter (fun i => matchesLabels i labels && isFailed i desiredState)).length

/-- InventoryStore.CountInProgress. -/
def countInProgress (store : List Instance) (labels : LabelMap) (desiredState : State) : Nat :=
  (store.filter (fun i => matchesLabels i labels && isInProgress i desiredState)).length

/-- InventoryStore.ResetFailedInstances: every FAILED instance matching the labels
becomes UNKNOWN. -/
def resetFailedInstances (store : List Instance) (labels : LabelMap) : List Instance :=
  store.map (fun i =>
    if matchesLabels i labels && i.status == Status.FAILED then
      { i with status := Status.UNKNOWN }
    else i)

/-- Storage key of an instance: the name, falling back to the IP when empty
(in-memory InventoryStore.Save / rolling strategy key usage). -/
def instKey (i : Instance) : String :=
  if i.name == "" then i.ip else i.name

/-- Field-by-field application of an InstancePatch (in-memory InventoryStore.Update):
labels merge, the other fields overwrite when present. -/
def setKV (ls : LabelMap) (k v : String) : LabelMap :=
  if ls.any (fun kv => kv.1 == k) then
    ls.map (fun kv => if kv.1 == k then (k, v) else kv)
  else ls ++ [(k, v)]

/-- Merge of a labels patch into existing labels: existing keys are retained
unless overridden. -/
def mergeLabels (ls patchLs : LabelMap) : LabelMap :=
  patchLs.foldl (fun acc kv => setKV acc kv.1 kv.2) ls

/-- Apply an InstancePatch to one instance. -/
def applyPatch (i : Instance) (p : InstancePatch) : Instance :=
  let i1 := match p.labels with
    | none => i
    | some ls => { i with labels := mergeLabels i.labels ls }
  let i2 := match p.lastPing with
    | none => i1
    | some t => { i1 with lastPing := t }
  let i3 := match p.status with
    | none => i2
    | some st => { i2 with status := st }
  let i4 := match p.currentState with
    | none => i3
    | some cs => { i3 with currentState := cs }
  match p.desiredState with
  | none => i4
  | some ds2 => { i4 with desiredState := ds2 }

/-- InventoryStore.Update: patch the instance stored under `key`, or fail
(ErrInstanceNotFound, modelled as `none`) when the key is absent. -/
def updateInstance (store : List Instance) (key : String) (p : InstancePatch) :
    Option (List Instance) :=
  if store.any (fun i => instKey i == key) then
    some (store.map (fun i => if instKey i == key then applyPatch i p else i))
  else none

/-- InventoryStore.Save: insert the instance under its key, overwriting any
existing entry with the same key. -/
def saveInstance (store : List Instance) (i : Instance) : List Instance :=
  if store.any (fun j => instKey j == instKey i) then
    store.map (fun j => if instKey j == instKey i then i else j)
  else store ++ [i]

/-- The patch sent by StateService.UpdateDesiredState: only `desired_state` is set. -/
def desiredPatch (desiredState : State) : InstancePatch :=
  ⟨none, none, none, none, some desiredState⟩

/-- StateService.UpdateDesiredState: patch the instance under `key` with the target
desired state. -/
def updateDesiredState (store : List Instance) (key : String) (desiredState : State) :
    Option (List Instance) :=
  updateInstance store key (desiredPatch desiredState)

/-- Deployment status (deployment/model.go): Unknown=0, Running=1, Completed=2, Failed=3. -/
inductive DeploymentStatus where
  | Unknown
  | Running
  | Completed
  | Failed
deriving DecidableEq

/-- Rollout configuration (deployment/model.go): batch size and failure threshold
are Go ints. -/
structure Configuration where
  batchSize : Int
  failureThreshold : Int
deriving DecidableEq

/-- Operator intent (deployment/model.go `DeploymentRequest`). -/
structure DeploymentRequest where
  codeVersion : String
  configurationVersion : String
  labels : LabelMap
  configuration : Configuration
deriving DecidableEq

/-- Progress counters of a rollout (deployment/model.go `DeploymentProgress`). -/
structure DeploymentProgress where
  totalMatchingInstances : Int
  inProgressInstances : Int
  completedInstances : Int
  failedInstances : Int
deriving DecidableEq

/-- A deployment record (deployment/model.go `DeploymentRecord`). -/
structure DeploymentRecord where
  id : String
  request : DeploymentRequest
  status : DeploymentStatus
  progress : DeploymentProgress
deriving DecidableEq

/-- All-zero progress, the initial value of a freshly created record. -/
def zeroProgress : DeploymentProgress := ⟨0, 0, 0, 0⟩

/-- The sentinel errors of the deployment core (deployment/trigger.go,
rolling_deployment.go, the in-memory stores and the rollback path). -/
inductive DeployError where
  | noInstancesMatch
  | errFailureThresholdExceeded
  | errRolloutInProgress
  | errInvalidDeploymentRequest
  | errDeploymentNotFound
  | errMoreThanOneInflightDeployment
  | errNoPreviousDeploymentFound
  | errInstanceNotFound
deriving DecidableEq

/-- In-memory deployment store: insertion-ordered records plus the id counter. -/
structure DeployStore where
  records : List DeploymentRecord
  nextId : Nat
deriving DecidableEq

/-- Zero-padded id rendering of DeploymentStore.generateID (`deployment-%03d`). -/
def pad3 (n : Nat) : String :=
  if n < 10 then "00" ++ toString n
  else if n < 100 then "0" ++ toString n
  else toString n

/-- DeploymentStore.generateID. -/
def generateID (n : Nat) : String := "deployment-" ++ pad3 n

/-- Replace every stored record whose id equals `r.id` by `r` (Go map assignment
under the store's unique-id discipline). -/
def mapReplace (recs : List DeploymentRecord) (r : DeploymentRecord) :
    List DeploymentRecord :=
  recs.map (fun e => if e.id == r.id then r else e)

/-- Go map insertion: overwrite the entry with the same id if present, append
otherwise. -/
def insertOrReplace (recs : List DeploymentRecord) (r : DeploymentRecord) :
    List DeploymentRecord :=
  if recs.any (fun e => e.id == r.id) then mapReplace recs r else recs ++ [r]

/-- DeploymentStore.Save: assign a fresh id and insert the record. Returns the
store and the record with its id set. -/
def dsSave (ds : DeployStore) (r : DeploymentRecord) : DeployStore × DeploymentRecord :=
  let saved := { r with id := generateID ds.nextId }
  (⟨insertOrReplace ds.records saved, ds.nextId + 1⟩, saved)

/-- DeploymentStore.Update: overwrite the record with the same id, failing with
ErrDeploymentNotFound when the id is absent. -/
def dsUpdate (ds : DeployStore) (r : DeploymentRecord) : DeployStore × Option DeployError :=
  if ds.records.any (fun e => e.id == r.id) then
    (⟨mapReplace ds.records r, ds.nextId⟩, none)
  else (ds, some DeployError.errDeploymentNotFound)

/-- DeploymentStore.GetByStatus. -/
def getByStatus (ds : DeployStore) (st : DeploymentStatus) : List DeploymentRecord :=
  ds.records.filter (fun r => r.status == st)

/-- DeploymentStore.matchesLabels on a record's request labels (superset match). -/
def recordMatchesLabels (r : DeploymentRecord) (labels : LabelMap) : Bool :=
  labels.all (fun kv => lookupKV r.request.labels kv.1 == some kv.2)

/-- Modelled from the spec: `GetByLabelsAndStatus(L, s)` of the Deployment Store
(§4.2) is absent from src (only the mock-based tests call it): superset-label
match on the request labels plus status equality, in insertion order. -/
def getByLabelsAndStatus (ds : DeployStore) (labels : LabelMap) (st : DeploymentStatus) :
    List DeploymentRecord :=
  ds.records.filter (fun r => recordMatchesLabels r labels && r.status == st)

/-- Target state of a record, as derived by the rolling strategy. -/
def targetState (record : DeploymentRecord) : State :=
  ⟨record.request.codeVersion, record.request.configurationVersion⟩

/-- Result of one rolling-strategy operation: the (possibly mutated) record, the
inventory, the deployment store, and the returned error. -/
structure RollingResult where
  record : DeploymentRecord
  inv : List Instance
  store : DeployStore
  err : Option DeployError
deriving DecidableEq

/-- Increment of `record.Progress.InProgressInstances++`. -/
def incInProgress (record : DeploymentRecord) : DeploymentRecord :=
  { record with progress :=
      { record.progress with inProgressInstances := record.progress.inProgressInstances + 1 } }

/-- The per-batch loop of the rolling strategy: set the desired state of each
instance (keyed by its Name), counting it in progress; stop at the first
UpdateDesiredState failure (ErrInstanceNotFound). -/
def applyBatch (batch : List Instance) (desiredState : State) (inv : List Instance)
    (record : DeploymentRecord) : List Instance × DeploymentRecord × Option DeployError :=
  match batch with
  | [] => (inv, record, none)
  | i :: rest =>
    match updateDesiredState inv i.name desiredState with
    | none => (inv, record, some DeployError.errInstanceNotFound)
    | some inv2 => applyBatch rest desiredState inv2 (incInProgress record)

/-- RollingDeployment.StartDeployment (rolling_deployment.go): reject when no
instance matches the labels; complete immediately when nothing needs an update;
otherwise start the first batch and persist the record. -/
def startDeployment (record : DeploymentRecord) (inv : List Instance) (ds : DeployStore) :
    RollingResult :=
  let total := countByLabels inv record.request.labels
  if total == 0 then ⟨record, inv, ds, some DeployError.noInstancesMatch⟩
  else
    let record1 := { record with progress :=
      { record.progress with totalMatchingInstances := (total : Int) } }
    let desired := targetState record
    let instances := getNeedingUpdate inv record.request.labels desired
      (some ⟨record.request.configuration.batchSize⟩)
    if instances.isEmpty then
      let p2 := { record1.progress with completedInstances := (total : Int) }
      let record2 := { record1 with status := DeploymentStatus.Completed, progress := p2 }
      let upd := dsUpdate ds record2
      ⟨record2, inv, upd.1, upd.2⟩
    else
      match applyBatch instances desired inv record1 with
      | (inv2, record2, some e) => ⟨record2, inv2, ds, some e⟩
      | (inv2, record2, none) =>
        let upd := dsUpdate ds record2
        ⟨record2, inv2, upd.1, upd.2⟩

/-- The state-refresh half of RollingDeployment.ProgressDeployment: write the three
aggregate counters into the record. -/
def progressRefresh (record : DeploymentRecord) (inv : List Instance) : DeploymentRecord :=
  let desired := targetState record
  let failed := countFailed inv record.request.labels desired
  let completed := countCompleted inv record.request.labels desired
  let inProgress := countInProgress inv record.request.labels desired
  let p2 := { record.progress with
              failedInstances := (failed : Int),
              completedInstances := (completed : Int),
              inProgressInstances := (inProgress : Int) }
  { record with progress := p2 }

/-- RollingDeployment.ProgressDeployment (rolling_deployment.go): refresh the
counters, then in order: failure trip (no persistence), completion, batch-full
wait, refill of `batch_size - in_progress` instances. -/
def progressDeployment (record : DeploymentRecord) (inv : List Instance) (ds : DeployStore) :
    RollingResult :=
  let desired := targetState record
  let failed := countFailed inv record.request.labels desired
  let completed := countCompleted inv record.request.labels desired
  let record1 := progressRefresh record inv
  if (failed : Int) ≥ record.request.configuration.failureThreshold then
    ⟨{ record1 with status := DeploymentStatus.Failed }, inv, ds,
      some DeployError.errFailureThresholdExceeded⟩
  else if (completed : Int) ≥ record1.progress.totalMatchingInstances then
    let p2 := { record1.progress with completedInstances := (completed : Int) }
    let record2 := { record1 with status := DeploymentStatus.Completed, progress := p2 }
    let upd := dsUpdate ds record2
    ⟨record2, inv, upd.1, upd.2⟩
  else if record1.progress.inProgressInstances = record.request.configuration.batchSize then
    let upd := dsUpdate ds record1
    ⟨record1, inv, upd.1, upd.2⟩
  else
    let instances := getNeedingUpdate inv record.request.labels desired
      (some ⟨record.request.configuration.batchSize - record1.progress.inProgressInstances⟩)
    match applyBatch instances desired inv record1 with
    | (inv2, record2, some e) => ⟨record2, inv2, ds, some e⟩
    | (inv2, record2, none) =>
      let upd := dsUpdate ds record2
      ⟨record2, inv2, upd.1, upd.2⟩

/-! Concrete inputs used by the per-claim witnesses and counterexamples. -/

/-- Target state used by the C1 failing input. -/
def c1target : State := ⟨"v2", "c2"⟩

/-- An instance already told to move to the target (in progress) but not there yet. -/
def c1inst : Instance :=
  ⟨"10.0.0.1", "web-1", [("role", "web")], 0, Status.UNKNOWN, ⟨"v1", "c1"⟩, ⟨"v2", "c2"⟩⟩

/-- Target state of the C6 counterexample. -/
def c6target : State := ⟨"v2", "c2"⟩

/-- A matching instance with desired = target, current ≠ target and status FAILED. -/
def c6inst : Instance :=
  ⟨"10.0.0.2", "web-2", [("env", "prod")], 0, Status.FAILED, ⟨"v1", "c1"⟩, ⟨"v2", "c2"⟩⟩

/-- Fresh single-instance inventory for the C2 counterexample run. -/
def c2inv : List Instance :=
  [⟨"10.0.0.1", "web-1", [("env", "prod")], 0, Status.UNKNOWN, ⟨"v1", "c1"⟩, ⟨"", ""⟩⟩]

/-- Rollout request of the C2 run: batch 1, threshold 5. -/
def c2req : DeploymentRequest := ⟨"v2", "c2", [("env", "prod")], ⟨1, 5⟩⟩

/-- The running record of the C2 run. -/
def c2rec : DeploymentRecord := ⟨"deployment-001", c2req, DeploymentStatus.Running, zeroProgress⟩

/-- Deployment store holding the C2 record. -/
def c2ds : DeployStore := ⟨[c2rec], 2⟩

/-- StartDeployment step of the C2 run. -/
def c2start : RollingResult := startDeployment c2rec c2inv c2ds

/-- Heartbeat patching web-1 to FAILED without touching its current state. -/
def c2invF : List Instance :=
  (updateInstance c2start.inv "web-1" ⟨none, none, some Status.FAILED, none, none⟩).getD c2start.inv

/-- ProgressDeployment step of the C2 run. -/
def c2prog : RollingResult := progressDeployment c2start.record c2invF c2start.store

/-- Inventory for the C3 witness: one matching instance FAILED against the target. -/
def c3inv : List Instance :=
  [⟨"10.0.0.1", "web-1", [("env", "prod")], 0, Status.FAILED, ⟨"v1", "c1"⟩, ⟨"v2", "c2"⟩⟩]

/-- Request of the C3 witness: threshold 1. -/
def c3req : DeploymentRequest := ⟨"v2", "c2", [("env", "prod")], ⟨2, 1⟩⟩

/-- Record of the C3 witness. -/
def c3rec : DeploymentRecord := ⟨"deployment-001", c3req, DeploymentStatus.Running, zeroProgress⟩

/-- Store of the C3 witness. -/
def c3ds : DeployStore := ⟨[c3rec], 2⟩

/-- Record of the C8 witness (selector nothing matches on an empty inventory). -/
def c8rec : DeploymentRecord :=
  ⟨"deployment-001", ⟨"v2", "c2", [("env", "prod")], ⟨2, 1⟩⟩, DeploymentStatus.Running, zeroProgress⟩

/-- Store of the C8 witness. -/
def c8ds : DeployStore := ⟨[c8rec], 2⟩

/-- Inventory for the already-converged half of the C8 witness. -/
def c8invDone : List Instance :=
  [⟨"10.0.0.1", "web-1", [("env", "prod")], 0, Status.HEALTHY, ⟨"v2", "c2"⟩, ⟨"", ""⟩⟩]

/-- The unlimited needing-update pool: label match plus `needsUpdate`. -/
def needFilter (store : List Instance) (labels : LabelMap) (t : State) : List Instance :=
  store.filter (fun i => matchesLabels i labels && needsUpdate i t)

/-- Record with `n` more in-progress instances, the net effect of the batch loop. -/
def addInProgress (record : DeploymentRecord) (n : Nat) : DeploymentRecord :=
  { record with progress :=
      { record.progress with
          inProgressInstances := record.progress.inProgressInstances + (n : Int) } }

/-- Uniform patch of every instance whose key is in `names`, the net effect of a
successful batch loop on the inventory. -/
def patchByKeys (store : List Instance) (names : List String) (p : InstancePatch) :
    List Instance :=
  store.map (fun j => if instKey j ∈ names then applyPatch j p else j)

/-- Request of the C10 witness: batch 1, threshold 10. -/
def c10req : DeploymentRequest := ⟨"v2", "c2", [("env", "prod")], ⟨1, 10⟩⟩

/-- Record of the C10 witness (4 matching instances). -/
def c10rec : DeploymentRecord := ⟨"deployment-001", c10req, DeploymentStatus.Running, ⟨4, 0, 0, 0⟩⟩

/-- Inventory of the C10 witness: two in-progress instances (in excess of the
batch size 1) and two untouched ones. -/
def c10inv : List Instance :=
  [⟨"10.0.0.1", "web-1", [("env", "prod")], 0, Status.UNKNOWN, ⟨"v1", "c1"⟩, ⟨"v2", "c2"⟩⟩,
   ⟨"10.0.0.2", "web-2", [("env", "prod")], 0, Status.UNKNOWN, ⟨"v1", "c1"⟩, ⟨"v2", "c2"⟩⟩,
   ⟨"10.0.0.3", "web-3", [("env", "prod")], 0, Status.UNKNOWN, ⟨"v1", "c1"⟩, ⟨"", ""⟩⟩,
   ⟨"10.0.0.4", "web-4", [("env", "prod")], 0, Status.UNKNOWN, ⟨"v1", "c1"⟩, ⟨"", ""⟩⟩]

/-- Store of the C10 witness. -/
def c10ds : DeployStore := ⟨[c10rec], 2⟩

/-- The expected post-tick value of web-3: desired state flooded to the target. -/
def c10j : Instance :=
  ⟨"10.0.0.3", "web-3", [("env", "prod")], 0, Status.UNKNOWN, ⟨"v1", "c1"⟩, ⟨"v2", "c2"⟩⟩

/-- A healthy heartbeat patch: status HEALTHY and current_state at the target
(the PATCH an agent sends when it finished updating). -/
def hbPatch (t : State) : InstancePatch := ⟨none, none, some Status.HEALTHY, some t, none⟩

/-- Apply one heartbeat per listed key through InventoryStore.Update. -/
def applyHeartbeats (inv : List Instance) (names : List String) (p : InstancePatch) :
    List Instance :=
  names.foldl (fun acc n => (updateInstance acc n p).getD acc) inv

/-- The StartDeployment half of the L2 round trip: a fresh Running record saved
under deployment-001. -/
def roundTripStart (inv0 : List Instance) (req : DeploymentRequest) : RollingResult :=
  startDeployment ⟨"deployment-001", req, DeploymentStatus.Running, zeroProgress⟩ inv0
    ⟨[⟨"deployment-001", req, DeploymentStatus.Running, zeroProgress⟩], 2⟩

/-- The rest of the L2 round trip: healthy heartbeats for exactly the instances
that needed the update, then one ProgressDeployment tick. -/
def roundTripFinal (inv0 : List Instance) (req : DeploymentRequest) : RollingResult :=
  let r1 := roundTripStart inv0 req
  let t : State := ⟨req.codeVersion, req.configurationVersion⟩
  progressDeployment r1.record
    (applyHeartbeats r1.inv
      ((needFilter inv0 req.labels t).map Instance.name) (hbPatch t)) r1.store

/-- Inventory of the C7 counterexample: one out-of-date instance. -/
def c7xinv : List Instance :=
  [⟨"10.0.0.1", "web-1", [("env", "prod")], 0, Status.UNKNOWN, ⟨"v1", "c1"⟩, ⟨"", ""⟩⟩]

/-- Request of the C7 counterexample: batch 1, failure threshold 0. -/
def c7xreq : DeploymentRequest := ⟨"v2", "c2", [("env", "prod")], ⟨1, 0⟩⟩

/-- Inventory of the C7 witness: one out-of-date instance and one already
completed (HEALTHY at the target). -/
def c7winv : List Instance :=
  [⟨"10.0.0.1", "web-1", [("env", "prod")], 0, Status.UNKNOWN, ⟨"v1", "c1"⟩, ⟨"", ""⟩⟩,
   ⟨"10.0.0.2", "web-2", [("env", "prod")], 0, Status.HEALTHY, ⟨"v2", "c2"⟩, ⟨"", ""⟩⟩]

/-- Request of the C7 witness: batch 1, failure threshold 1. -/
def c7wreq : DeploymentRequest := ⟨"v2", "c2", [("env", "prod")], ⟨1, 1⟩⟩

/-- InMemoryLocker.Lock (deployment in-memory locker): records the key and always
returns success, without checking whether the key is already held. -/
def lockerLock (locks : List String) (key : String) : List String × Option DeployError :=
  (if locks.contains key then locks else locks ++ [key], none)

/-- InMemoryLocker.Unlock: removes the key, always returns success. -/
def lockerUnlock (locks : List String) (key : String) : List String × Option DeployError :=
  (locks.filter (fun k => !(k == key)), none)

/-- The only lock key used by the Trigger Service (trigger.go `lockKey`). -/
def lockKey : String := "deployment"

/-- The whole mutable state of the deployment core: deployment store, inventory
store and locker state. -/
structure SystemState where
  dstore : DeployStore
  inv : List Instance
  locks : List String
deriving DecidableEq

/-- Result of a Trigger Service operation: the new system state and the error. -/
structure TriggerResult where
  state : SystemState
  err : Option DeployError
deriving DecidableEq

/-- TriggerService.isRolloutInProgress (trigger.go): a Running record exists. -/
def isRolloutInProgress (ds : DeployStore) : Bool :=
  decide (0 < (getByStatus ds DeploymentStatus.Running).length)

/-- TriggerService.TriggerDeployment. The guard (validate, lock, reject when a
rollout is in progress, save) follows trigger.go; the subsequent
strategy.StartDeployment call is modelled from the spec: §4.5 step 5 (the
strategy-based TriggerDeployment is absent from src, which only carries an
older version that stops after Save). -/
def triggerDeployment (s : SystemState) (req : DeploymentRequest) : TriggerResult :=
  if req.codeVersion == "" then ⟨s, some DeployError.errInvalidDeploymentRequest⟩
  else
    let locks1 := (lockerLock s.locks lockKey).1
    if isRolloutInProgress s.dstore then
      ⟨⟨s.dstore, s.inv, (lockerUnlock locks1 lockKey).1⟩, some DeployError.errRolloutInProgress⟩
    else
      let sv := dsSave s.dstore ⟨"", req, DeploymentStatus.Running, zeroProgress⟩
      let r := startDeployment sv.2 s.inv sv.1
      ⟨⟨r.store, r.inv, (lockerUnlock locks1 lockKey).1⟩, r.err⟩

/-- Modelled from the spec: TriggerService.TriggerRollback (§4.5) is absent from
src (only its mock-based tests and the design docs describe it): flip any
Running record to Failed, reset failed instances, find the most recent previous
Completed record for the labels (insertion order), save a new Running record
carrying its versions with the supplied labels and configuration, and start it
with the rolling strategy. -/
def triggerRollbackCore (s : SystemState) (labels : LabelMap) (config : Configuration) :
    TriggerResult :=
  let ds1 : DeployStore := ⟨s.dstore.records.map (fun r =>
      if r.status == DeploymentStatus.Running then { r with status := DeploymentStatus.Failed }
      else r),
    s.dstore.nextId⟩
  let inv1 := resetFailedInstances s.inv labels
  match (getByLabelsAndStatus ds1 labels DeploymentStatus.Completed).getLast? with
  | none => ⟨⟨ds1, inv1, s.locks⟩, some DeployError.errNoPreviousDeploymentFound⟩
  | some prev =>
    let sv := dsSave ds1 ⟨"", ⟨prev.request.codeVersion, prev.request.configurationVersion,
      labels, config⟩, DeploymentStatus.Running, zeroProgress⟩
    let r := startDeployment sv.2 inv1 sv.1
    ⟨⟨r.store, r.inv, s.locks⟩, r.err⟩

/-- Modelled from the spec: the locked entry point of TriggerRollback (§4.5). -/
def triggerRollback (s : SystemState) (labels : LabelMap) (config : Configuration) :
    TriggerResult :=
  let locks1 := (lockerLock s.locks lockKey).1
  let rb := triggerRollbackCore ⟨s.dstore, s.inv, locks1⟩ labels config
  ⟨⟨rb.state.dstore, rb.state.inv, (lockerUnlock rb.state.locks lockKey).1⟩, rb.err⟩

/-- Modelled from the spec: TriggerService.ProgressDeployment (§4.5): with the
lock held, fetch the Running records; none means nothing to do, more than one is
ErrMoreThanOneInflightDeployment; otherwise run the rolling strategy and, on
ErrFailureThresholdExceeded, persist the now-Failed record and immediately
execute the rollback (the error is never surfaced). -/
def progressTrigger (s : SystemState) : TriggerResult :=
  let locks1 := (lockerLock s.locks lockKey).1
  match getByStatus s.dstore DeploymentStatus.Running with
  | [] => ⟨⟨s.dstore, s.inv, (lockerUnlock locks1 lockKey).1⟩, none⟩
  | [r0] =>
    let res := progressDeployment r0 s.inv s.dstore
    if res.err == some DeployError.errFailureThresholdExceeded then
      let upd := dsUpdate res.store res.record
      let rb := triggerRollbackCore ⟨upd.1, res.inv, locks1⟩ r0.request.labels
        r0.request.configuration
      ⟨⟨rb.state.dstore, rb.state.inv, (lockerUnlock rb.state.locks lockKey).1⟩, none⟩
    else ⟨⟨res.store, res.inv, (lockerUnlock locks1 lockKey).1⟩, res.err⟩
  | _ => ⟨⟨s.dstore, s.inv, (lockerUnlock locks1 lockKey).1⟩,
      some DeployError.errMoreThanOneInflightDeployment⟩

/-- Number of Running records in a deployment store. -/
def runningCount (recs : List DeploymentRecord) : Nat :=
  (recs.filter (fun r => r.status == DeploymentStatus.Running)).length

/-- Distinctness of the stored ids, the Go-map key discipline of the store. -/
def keysUnique (recs : List DeploymentRecord) : Prop :=
  (recs.map DeploymentRecord.id).Nodup

/-- States of the deployment core reachable from the empty stores by instance
registration, heartbeat patches and the three Trigger Service operations. -/
inductive Reachable : SystemState → Prop where
  | init : Reachable ⟨⟨[], 1⟩, [], []⟩
  | register (s : SystemState) (i : Instance) : Reachable s →
      Reachable ⟨s.dstore, saveInstance s.inv i, s.locks⟩
  | heartbeat (s : SystemState) (key : String) (p : InstancePatch) : Reachable s →
      Reachable ⟨s.dstore, (updateInstance s.inv key p).getD s.inv, s.locks⟩
  | deploy (s : SystemState) (req : DeploymentRequest) : Reachable s →
      Reachable (triggerDeployment s req).state
  | tick (s : SystemState) : Reachable s → Reachable (progressTrigger s).state
  | rollback (s : SystemState) (labels : LabelMap) (config : Configuration) : Reachable s →
      Reachable (triggerRollback s labels config).state

/-- A store with one Running record, input of the C4 witness. -/
def c4ds : DeployStore :=
  ⟨[⟨"deployment-001", ⟨"v1", "c1", [], ⟨1, 1⟩⟩, DeploymentStatus.Running, zeroProgress⟩], 2⟩

/-- System state of the C4 witness. -/
def c4state : SystemState := ⟨c4ds, [], []⟩

/-- Request of the C4 witness. -/
def c4req : DeploymentRequest := ⟨"v2", "c2", [("env", "prod")], ⟨1, 1⟩⟩

/-- A Completed previous record for the C5 witness. -/
def c5prev : DeploymentRecord :=
  ⟨"deployment-001", ⟨"v1", "c1", [("env", "prod")], ⟨2, 1⟩⟩, DeploymentStatus.Completed,
    zeroProgress⟩

/-- System state of the C5 witness: one Completed record and one matching FAILED
instance at (v1, c1). -/
def c5state : SystemState :=
  ⟨⟨[c5prev], 2⟩,
    [⟨"10.0.0.1", "web-1", [("env", "prod")], 0, Status.FAILED, ⟨"v2", "c2"⟩, ⟨"v2", "c2"⟩⟩],
    []⟩

/-- Rollback configuration supplied to the C5 witness. -/
def c5config : Configuration := ⟨1, 1⟩

/-! Additional concrete inputs for witnesses. -/

/-- A completed instance for the C6 witness. -/
def c6wInst : Instance :=
  ⟨"10.0.0.3", "web-3", [("env", "prod")], 0, Status.HEALTHY, ⟨"v2", "c2"⟩, ⟨"v2", "c2"⟩⟩

/-- Record for the C2 witness: total already equals the matching count (1). -/
def c2wrec : DeploymentRecord := ⟨"deployment-001", c2req, DeploymentStatus.Running, ⟨1, 0, 0, 0⟩⟩

/-! Helper lemmas shared between claims. -/




/-- An instance is never both completed and in progress against the same target:
completed forces `current = target`, in progress forces `current ≠ target`. -/
theorem not_completed_and_inProgress (i : Instance) (t : State) :
    ¬(isCompleted i t = true ∧ isInProgress i t = true) := by
  intro h
  obtain ⟨h1, h2⟩ := h
  simp only [isCompleted, Bool.and_eq_true, beq_iff_eq] at h1
  simp only [isInProgress, Bool.and_eq_true, Bool.or_eq_true, Bool.not_eq_true',
    beq_eq_false_iff_ne, beq_iff_eq, ne_eq] at h2
  simp_all

/-- An instance is never both completed and failed against the same target:
the statuses HEALTHY and FAILED are mutually exclusive. -/
theorem not_completed_and_failed (i : Instance) (t : State) :
    ¬(isCompleted i t = true ∧ isFailed i t = true) := by
  intro h
  obtain ⟨h1, h2⟩ := h
  simp only [isCompleted, Bool.and_eq_true, beq_iff_eq] at h1
  simp only [isFailed, Bool.and_eq_true, beq_iff_eq] at h2
  simp_all

/-- Counting two pointwise-disjoint sub-predicates of `p` is bounded by counting `p`. -/
theorem length_filter_two_disjoint (l : List Instance) (p a b : Instance → Bool)
    (h : ∀ i ∈ l, ¬(a i = true ∧ b i = true)) :
    (l.filter (fun i => p i && a i)).length + (l.filter (fun i => p i && b i)).length ≤
      (l.filter p).length := by
  induction l with
  | nil => simp
  | cons x xs ih =>
    have hx := h x (List.mem_cons_self x xs)
    have ihh := ih (fun i hi => h i (List.mem_cons_of_mem _ hi))
    cases hp : p x <;> cases ha : a x <;> cases hb : b x
    all_goals first
      | (exact absurd (And.intro ha hb) hx)
      | (simp [List.filter_cons, hp, ha, hb]; omega)

/-- The Update of the in-memory deployment store either succeeds or reports
ErrDeploymentNotFound. -/
theorem dsUpdate_err (ds : DeployStore) (r : DeploymentRecord) :
    (dsUpdate ds r).2 = none ∨ (dsUpdate ds r).2 = some DeployError.errDeploymentNotFound := by
  unfold dsUpdate
  split <;> simp

/-- The batch loop either succeeds or reports ErrInstanceNotFound. -/
theorem applyBatch_err (batch : List Instance) (t : State) (inv : List Instance)
    (record : DeploymentRecord) :
    (applyBatch batch t inv record).2.2 = none ∨
      (applyBatch batch t inv record).2.2 = some DeployError.errInstanceNotFound := by
  induction batch generalizing inv record with
  | nil => simp [applyBatch]
  | cons i rest ih =>
    unfold applyBatch
    cases updateDesiredState inv i.name t with
    | none => simp
    | some inv2 => simpa using ih inv2 (incInProgress record)


/-- The Update error can only be ErrDeploymentNotFound, hence never any other
sentinel. -/
theorem dsUpdate_err_ne (ds : DeployStore) (r : DeploymentRecord) (e : DeployError)
    (h : e ≠ DeployError.errDeploymentNotFound) : (dsUpdate ds r).2 ≠ some e := by
  rcases dsUpdate_err ds r with he | he <;> rw [he] <;> simp [h, Ne.symm h]

/-- The batch-loop error can only be ErrInstanceNotFound, hence never any other
sentinel. -/
theorem applyBatch_err_ne (batch : List Instance) (t : State) (inv : List Instance)
    (record : DeploymentRecord) (e : DeployError)
    (h : e ≠ DeployError.errInstanceNotFound) :
    (applyBatch batch t inv record).2.2 ≠ some e := by
  rcases applyBatch_err batch t inv record with he | he <;> rw [he] <;> simp [h, Ne.symm h]

/-- C1 (code_bug evaluation): `GetNeedingUpdate` returns an instance whose
desired_state already equals the target (an in-progress instance), because
`needsUpdate` checks only `current_state ≠ T`; the claim requires the pool to
contain only instances with `desired_state ≠ T` as well. -/
theorem c1_getNeedingUpdate_includes_in_progress :
    getNeedingUpdate [c1inst] [("role", "web")] c1target none = [c1inst] ∧
      isInProgress c1inst c1target = true ∧
      matchesLabels c1inst [("role", "web")] = true ∧
      c1inst.desiredState = c1target := by
  decide

/-- C6 counterexample: a matching instance with desired = target, current ≠ target
and status FAILED satisfies both the in-progress and the failed classification
predicates simultaneously, refuting the claimed mutual exclusion. -/
theorem c6_inProgress_and_failed_overlap :
    matchesLabels c6inst [("env", "prod")] = true ∧ isInProgress c6inst c6target = true ∧
      isFailed c6inst c6target = true := by
  decide

/-- C6 (amended): the classification predicates are only partially exclusive:
completed excludes in-progress and failed, and in-progress implies needing
update (the documented overlap); in-progress and failed may hold together. -/
theorem c6_classification_partial_exclusive :
    ∀ (i : Instance) (t : State),
      (isCompleted i t = true → isInProgress i t = false) ∧
      (isCompleted i t = true → isFailed i t = false) ∧
      (isInProgress i t = true → needsUpdate i t = true) := by
  intro i t
  refine ⟨?_, ?_, ?_⟩
  · intro hc
    cases hip : isInProgress i t
    · rfl
    · exact absurd (And.intro hc hip) (not_completed_and_inProgress i t)
  · intro hc
    cases hf : isFailed i t
    · rfl
    · exact absurd (And.intro hc hf) (not_completed_and_failed i t)
  · intro hip
    simp only [isInProgress, Bool.and_eq_true] at hip
    simp only [needsUpdate]
    exact hip.2

/-- C6 witness: the amended exclusivity evaluated on a concrete completed instance. -/
theorem c6_classification_witness : isInProgress c6wInst c6target = false :=
  (c6_classification_partial_exclusive c6wInst c6target).1 (by decide)

/-- C2 counterexample: a record reachable by StartDeployment, one FAILED
heartbeat and ProgressDeployment whose refreshed counters sum to more than
total_matching (the instance is counted both failed and in progress). -/
theorem c2_sum_exceeds_total :
    c2prog.record.progress.totalMatchingInstances <
      c2prog.record.progress.completedInstances + c2prog.record.progress.failedInstances +
        c2prog.record.progress.inProgressInstances ∧
      c2prog.err = none := by
  decide

/-- C2 (amended): after the refresh half of ProgressDeployment, the pairwise sums
completed + in_progress and completed + failed are bounded by total_matching
(when total_matching matches the inventory); the three-way sum is not, since
failed and in-progress overlap. -/
theorem c2_pairwise_counter_bounds (record : DeploymentRecord) (inv : List Instance)
    (h : record.progress.totalMatchingInstances =
      (countByLabels inv record.request.labels : Int)) :
    (progressRefresh record inv).progress.completedInstances +
        (progressRefresh record inv).progress.inProgressInstances ≤
      (progressRefresh record inv).progress.totalMatchingInstances ∧
    (progressRefresh record inv).progress.completedInstances +
        (progressRefresh record inv).progress.failedInstances ≤
      (progressRefresh record inv).progress.totalMatchingInstances := by
  have h1 := length_filter_two_disjoint inv (fun i => matchesLabels i record.request.labels)
    (fun i => isCompleted i (targetState record)) (fun i => isInProgress i (targetState record))
    (fun i _ => not_completed_and_inProgress i (targetState record))
  have h2 := length_filter_two_disjoint inv (fun i => matchesLabels i record.request.labels)
    (fun i => isCompleted i (targetState record)) (fun i => isFailed i (targetState record))
    (fun i _ => not_completed_and_failed i (targetState record))
  simp only [progressRefresh, countCompleted, countInProgress, countFailed,
    countByLabels] at h1 h2 h ⊢
  constructor <;> (rw [h]; omega)

/-- C2 witness: the pairwise bounds evaluated on the concrete C2 inventory. -/
theorem c2_pairwise_counter_bounds_witness :
    (progressRefresh c2wrec c2inv).progress.completedInstances +
        (progressRefresh c2wrec c2inv).progress.inProgressInstances ≤
      (progressRefresh c2wrec c2inv).progress.totalMatchingInstances :=
  (c2_pairwise_counter_bounds c2wrec c2inv (by decide)).1


/-- C3: the rolling ProgressDeployment returns ErrFailureThresholdExceeded with a
Failed record exactly when the freshly counted failures reach the threshold, and
on that path the deployment store is left untouched (no store.Update). -/
theorem c3_failure_trip (record : DeploymentRecord) (inv : List Instance) (ds : DeployStore) :
    ((progressDeployment record inv ds).err = some DeployError.errFailureThresholdExceeded ↔
      ((countFailed inv record.request.labels (targetState record) : Int) ≥
        record.request.configuration.failureThreshold)) ∧
    (((countFailed inv record.request.labels (targetState record) : Int) ≥
        record.request.configuration.failureThreshold) →
      (progressDeployment record inv ds).record.status = DeploymentStatus.Failed ∧
      (progressDeployment record inv ds).store = ds) := by
  by_cases hf : ((countFailed inv record.request.labels (targetState record) : Int) ≥
      record.request.configuration.failureThreshold)
  · constructor
    · simp [progressDeployment, hf]
    · intro _
      constructor <;> simp [progressDeployment, hf]
  · have hne : (progressDeployment record inv ds).err ≠
        some DeployError.errFailureThresholdExceeded := by
      simp only [progressDeployment, hf, if_false]
      split
      · exact dsUpdate_err_ne ds _ _ (by decide)
      · split
        · exact dsUpdate_err_ne ds _ _ (by decide)
        · rcases hab : applyBatch (getNeedingUpdate inv record.request.labels
              (targetState record) (some ⟨record.request.configuration.batchSize -
                (progressRefresh record inv).progress.inProgressInstances⟩))
              (targetState record) inv (progressRefresh record inv) with ⟨inv2, rec2, e⟩
          cases e with
          | none =>
            rcases applyBatch_err _ _ _ _ with he | he <;> rw [hab] at he <;> simp at he
            rcases dsUpdate_err ds rec2 with hu | hu <;> simp [hab, hu]
          | some ex =>
            rcases applyBatch_err _ _ _ _ with he | he <;> rw [hab] at he <;> simp at he
            simp [hab, he]
    exact ⟨⟨fun he => absurd he hne, fun h => absurd h hf⟩, fun h => absurd h hf⟩

/-- C3 witness: one FAILED instance against threshold 1 trips the failure path
without touching the store. -/
theorem c3_failure_trip_witness :
    (progressDeployment c3rec c3inv c3ds).err =
        some DeployError.errFailureThresholdExceeded ∧
      (progressDeployment c3rec c3inv c3ds).store = c3ds :=
  ⟨(c3_failure_trip c3rec c3inv c3ds).1.mpr (by decide),
    ((c3_failure_trip c3rec c3inv c3ds).2 (by decide)).2⟩

/-- C8: StartDeployment fails with the no-instances-match error exactly when
CountByLabels is 0 (leaving inventory and store untouched); with matches but an
empty needing-update pool it completes immediately, setting completed = total
and persisting through store.Update. -/
theorem c8_start_boundaries (record : DeploymentRecord) (inv : List Instance) (ds : DeployStore) :
    ((startDeployment record inv ds).err = some DeployError.noInstancesMatch ↔
      countByLabels inv record.request.labels = 0) ∧
    (countByLabels inv record.request.labels = 0 →
      (startDeployment record inv ds).store = ds ∧ (startDeployment record inv ds).inv = inv) ∧
    (0 < countByLabels inv record.request.labels →
      getNeedingUpdate inv record.request.labels (targetState record)
          (some ⟨record.request.configuration.batchSize⟩) = [] →
      (startDeployment record inv ds).record.status = DeploymentStatus.Completed ∧
      (startDeployment record inv ds).record.progress.completedInstances =
        (countByLabels inv record.request.labels : Int) ∧
      (startDeployment record inv ds).store =
        (dsUpdate ds (startDeployment record inv ds).record).1) := by
  by_cases h0 : countByLabels inv record.request.labels = 0
  · refine ⟨by simp [startDeployment, h0], fun _ => by simp [startDeployment, h0],
      fun hpos => absurd h0 (by omega)⟩
  · have hne : (startDeployment record inv ds).err ≠ some DeployError.noInstancesMatch := by
      simp only [startDeployment, h0, beq_iff_eq, if_false]
      split
      · exact dsUpdate_err_ne ds _ _ (by decide)
      · split
        · rename_i inv2 rec2 e hab
          rcases applyBatch_err _ _ _ _ with he | he <;> rw [hab] at he <;> simp at he <;>
            simp [he]
        · rename_i inv2 rec2 hab
          rcases dsUpdate_err ds rec2 with hu | hu <;> simp [hu]
    refine ⟨⟨fun he => absurd he hne, fun h => absurd h h0⟩, fun h => absurd h h0, ?_⟩
    intro _ hempty
    simp [startDeployment, h0, hempty]

/-- C8 witness: empty inventory rejects; a single already-converged instance
completes immediately. -/
theorem c8_start_boundaries_witness :
    (startDeployment c8rec [] c8ds).err = some DeployError.noInstancesMatch ∧
      (startDeployment c8rec c8invDone c8ds).record.status = DeploymentStatus.Completed :=
  ⟨(c8_start_boundaries c8rec [] c8ds).1.mpr (by decide),
    ((c8_start_boundaries c8rec c8invDone c8ds).2.2 (by decide) (by decide)).1⟩


/-- With a non-positive limit the GetNeedingUpdate loop collects the whole pool. -/
theorem getNeedingUpdateAux_nolimit (insts : List Instance) (labels : LabelMap) (t : State)
    (m : Int) (hm : m ≤ 0) (acc : List Instance) :
    getNeedingUpdateAux insts labels t m acc = acc ++ needFilter insts labels t := by
  induction insts generalizing acc with
  | nil => simp [getNeedingUpdateAux, needFilter]
  | cons i rest ih =>
    have hng : ¬((m > 0 && ((acc ++ [i]).length : Int) ≥ m) = true) := by
      rw [Bool.and_eq_true]
      rintro ⟨h1, _⟩
      exact absurd (of_decide_eq_true h1) (by omega)
    unfold getNeedingUpdateAux
    by_cases hmi : (matchesLabels i labels && needsUpdate i t) = true
    · rw [if_pos hmi, if_neg hng, ih (acc ++ [i])]
      simp [needFilter, List.filter_cons, hmi]
    · rw [if_neg hmi, ih acc]
      simp [needFilter, List.filter_cons, hmi]

/-- When the whole pool fits under the limit, the GetNeedingUpdate loop collects
it entirely (the break never truncates). -/
theorem getNeedingUpdateAux_all (insts : List Instance) (labels : LabelMap) (t : State)
    (m : Int) (acc : List Instance)
    (hlen : (acc.length : Int) + ((needFilter insts labels t).length : Int) ≤ m) :
    getNeedingUpdateAux insts labels t m acc = acc ++ needFilter insts labels t := by
  induction insts generalizing acc with
  | nil => simp [getNeedingUpdateAux, needFilter]
  | cons i rest ih =>
    unfold getNeedingUpdateAux
    by_cases hmi : (matchesLabels i labels && needsUpdate i t) = true
    · have hcons : needFilter (i :: rest) labels t = i :: needFilter rest labels t := by
        simp [needFilter, List.filter_cons, hmi]
      rw [hcons] at hlen
      simp only [List.length_cons] at hlen
      push_cast at hlen
      by_cases hbreak : (m > 0 && ((acc ++ [i]).length : Int) ≥ m) = true
      · have h1 : ((acc ++ [i]).length : Int) ≥ m := by
          have h2 := hbreak
          rw [Bool.and_eq_true] at h2
          exact of_decide_eq_true h2.2
      -- the break fired with the whole remaining pool already collected
        have h3 : needFilter rest labels t = [] := by
          apply List.length_eq_zero.mp
          simp only [List.length_append, List.length_cons, List.length_nil] at h1
          push_cast at h1
          omega
        rw [if_pos hmi, if_pos hbreak, hcons, h3]
      · rw [if_pos hmi, if_neg hbreak, ih (acc ++ [i]) (by
          simp only [List.length_append, List.length_cons, List.length_nil]
          push_cast
          omega), hcons]
        simp
    · have hcons : needFilter (i :: rest) labels t = needFilter rest labels t := by
        simp [needFilter, List.filter_cons, hmi]
      rw [hcons] at hlen
      rw [if_neg hmi, ih acc hlen, hcons]

/-- GetNeedingUpdate returns the full pool whenever the pool is no larger than
the requested (possibly non-positive, i.e. unlimited) limit. -/
theorem getNeedingUpdate_full (store : List Instance) (labels : LabelMap) (t : State)
    (B : Int) (h : ((needFilter store labels t).length : Int) ≤ B ∨ B ≤ 0) :
    getNeedingUpdate store labels t (some ⟨B⟩) = needFilter store labels t := by
  unfold getNeedingUpdate
  show getNeedingUpdateAux store labels t (if B > 0 then B else -1) [] =
    needFilter store labels t
  by_cases hb : B > 0
  · rw [if_pos hb]
    have hle : ((needFilter store labels t).length : Int) ≤ B := by
      rcases h with h | h
      · exact h
      · omega
    simpa using getNeedingUpdateAux_all store labels t B [] (by simpa using hle)
  · rw [if_neg hb]
    simpa using getNeedingUpdateAux_nolimit store labels t (-1) (by omega) []

/-- Applying a patch never changes the storage key of an instance. -/
theorem instKey_applyPatch (j : Instance) (p : InstancePatch) :
    instKey (applyPatch j p) = instKey j := by
  rcases p with ⟨pl, pp, ps, pc, pd⟩
  cases pl <;> cases pp <;> cases ps <;> cases pc <;> cases pd <;> rfl

/-- Update succeeds whenever some stored instance carries the requested key. -/
theorem updateInstance_present (store : List Instance) (key : String) (p : InstancePatch)
    (h : ∃ j ∈ store, instKey j = key) :
    updateInstance store key p =
      some (store.map (fun j => if instKey j == key then applyPatch j p else j)) := by
  unfold updateInstance
  rw [if_pos]
  rcases h with ⟨j, hj, hkey⟩
  simp only [List.any_eq_true]
  exact ⟨j, hj, by simp [hkey]⟩

/-- The desired-state patch only rewrites `desired_state`. -/
theorem applyPatch_desiredPatch (j : Instance) (t : State) :
    applyPatch j (desiredPatch t) = { j with desiredState := t } := rfl

/-- A successful batch loop patches the desired state of exactly the batch members
(by key) and counts them in progress. -/
theorem applyBatch_map (batch : List Instance) (t : State) (inv : List Instance)
    (record : DeploymentRecord)
    (hpres : ∀ b ∈ batch, ∃ j ∈ inv, instKey j = b.name)
    (hnodup : (batch.map Instance.name).Nodup) :
    applyBatch batch t inv record =
      (patchByKeys inv (batch.map Instance.name) (desiredPatch t),
        addInProgress record batch.length, none) := by
  induction batch generalizing inv record with
  | nil =>
    simp [applyBatch, patchByKeys, addInProgress]
  | cons b rest ih =>
    have hb := hpres b (List.mem_cons_self b rest)
    have hinv1 : updateDesiredState inv b.name t =
        some (inv.map (fun j => if instKey j == b.name then applyPatch j (desiredPatch t) else j)) :=
      updateInstance_present inv b.name (desiredPatch t) hb
    simp only [applyBatch, hinv1]
    have hpres2 : ∀ c ∈ rest, ∃ j ∈
        inv.map (fun j => if instKey j == b.name then applyPatch j (desiredPatch t) else j),
        instKey j = c.name := by
      intro c hc
      rcases hpres c (List.mem_cons_of_mem b hc) with ⟨j, hj, hkey⟩
      refine ⟨if instKey j == b.name then applyPatch j (desiredPatch t) else j,
        List.mem_map_of_mem _ hj, ?_⟩
      by_cases hk : (instKey j == b.name) = true
      · rw [if_pos hk, instKey_applyPatch]
        exact hkey
      · rw [if_neg hk]
        exact hkey
    have hnodup2 : (rest.map Instance.name).Nodup := (List.nodup_cons.mp hnodup).2
    rw [ih _ (incInProgress record) hpres2 hnodup2]
    have hbn : b.name ∉ rest.map Instance.name := (List.nodup_cons.mp hnodup).1
    simp only [Prod.mk.injEq]
    refine ⟨?_, ?_, trivial⟩
    · simp only [patchByKeys, List.map_map, List.map_cons]
      apply List.map_congr_left
      intro j _
      simp only [Function.comp_apply]
      by_cases hk : (instKey j == b.name) = true
      · have hkeq : instKey j = b.name := by simpa using hk
        rw [if_pos hk, instKey_applyPatch]
        rw [if_neg (by rw [hkeq]; exact hbn)]
        rw [if_pos (by rw [hkeq]; exact List.mem_cons_self _ _)]
      · have hkne : instKey j ≠ b.name := by simpa using hk
        rw [if_neg hk]
        by_cases hm : instKey j ∈ rest.map Instance.name
        · rw [if_pos hm, if_pos (List.mem_cons_of_mem _ hm)]
        · rw [if_neg hm, if_neg (by
            rw [List.mem_cons]
            rintro (h | h)
            · exact hkne h
            · exact hm h)]
    · simp only [List.length_cons, addInProgress, incInProgress]
      congr 1
      congr 1
      push_cast
      ring


/-- C10: once the refreshed in-progress count exceeds batch_size, the batch-full
guard (an equality test) does not fire, the refill limit batch_size − in_progress
is non-positive, GetNeedingUpdate treats it as no limit, and the tick sets
desired_state on every matching instance that still needs the update. -/
theorem c10_overfull_batch_floods (record : DeploymentRecord) (inv : List Instance)
    (ds : DeployStore)
    (hkeys : (inv.map instKey).Nodup)
    (hnames : ∀ i ∈ inv, i.name ≠ "")
    (hf : ¬((countFailed inv record.request.labels (targetState record) : Int) ≥
      record.request.configuration.failureThreshold))
    (hc : ¬((countCompleted inv record.request.labels (targetState record) : Int) ≥
      record.progress.totalMatchingInstances))
    (hip : record.request.configuration.batchSize <
      (countInProgress inv record.request.labels (targetState record) : Int)) :
    ∀ j ∈ (progressDeployment record inv ds).inv,
      matchesLabels j record.request.labels = true →
      needsUpdate j (targetState record) = true →
      j.desiredState = targetState record := by
  have htot : (progressRefresh record inv).progress.totalMatchingInstances =
      record.progress.totalMatchingInstances := rfl
  have hipr : (progressRefresh record inv).progress.inProgressInstances =
      (countInProgress inv record.request.labels (targetState record) : Int) := rfl
  have hr2 : ¬((countCompleted inv record.request.labels (targetState record) : Int) ≥
      (progressRefresh record inv).progress.totalMatchingInstances) := by
    rw [htot]; exact hc
  have hr3 : ¬((progressRefresh record inv).progress.inProgressInstances =
      record.request.configuration.batchSize) := by
    rw [hipr]; omega
  have hfull : getNeedingUpdate inv record.request.labels (targetState record)
      (some ⟨record.request.configuration.batchSize -
        (progressRefresh record inv).progress.inProgressInstances⟩) =
      needFilter inv record.request.labels (targetState record) := by
    apply getNeedingUpdate_full
    right
    rw [hipr]
    omega
  have hpres : ∀ b ∈ needFilter inv record.request.labels (targetState record),
      ∃ j2 ∈ inv, instKey j2 = b.name := by
    intro b hb
    have hbinv : b ∈ inv := List.mem_of_mem_filter hb
    exact ⟨b, hbinv, by simp [instKey, hnames b hbinv]⟩
  have hname_eq : inv.map Instance.name = inv.map instKey :=
    List.map_congr_left (fun x hx => by simp [instKey, hnames x hx])
  have hnodup : ((needFilter inv record.request.labels (targetState record)).map
      Instance.name).Nodup := by
    have h1 : List.Sublist
        ((needFilter inv record.request.labels (targetState record)).map Instance.name)
        (inv.map Instance.name) := List.Sublist.map _ (List.filter_sublist _)
    exact ((hname_eq ▸ hkeys : (inv.map Instance.name).Nodup)).sublist h1
  have hmap := applyBatch_map (needFilter inv record.request.labels (targetState record))
    (targetState record) inv (progressRefresh record inv) hpres hnodup
  have hinv : (progressDeployment record inv ds).inv =
      patchByKeys inv
        ((needFilter inv record.request.labels (targetState record)).map Instance.name)
        (desiredPatch (targetState record)) := by
    simp only [progressDeployment]
    rw [if_neg hf, if_neg hr2, if_neg hr3, hfull, hmap]
  intro j hj hm hn
  rw [hinv] at hj
  rcases List.mem_map.mp hj with ⟨j0, hj0, heq⟩
  subst heq
  by_cases hmem : instKey j0 ∈
      (needFilter inv record.request.labels (targetState record)).map Instance.name
  · rw [if_pos hmem, applyPatch_desiredPatch]
  · rw [if_neg hmem] at hm hn ⊢
    exfalso
    apply hmem
    have hj0need : j0 ∈ needFilter inv record.request.labels (targetState record) := by
      simp only [needFilter, List.mem_filter]
      exact ⟨hj0, by simp [hm, hn]⟩
    have hkey0 : instKey j0 = j0.name := by simp [instKey, hnames j0 hj0]
    rw [hkey0]
    exact List.mem_map_of_mem _ hj0need

/-- C10 witness: with batch 1 but two in-progress instances, one tick floods the
desired state onto web-3 (and every other remaining instance). -/
theorem c10_overfull_batch_floods_witness : c10j.desiredState = targetState c10rec :=
  c10_overfull_batch_floods c10rec c10inv c10ds (by decide) (by decide) (by decide)
    (by decide) (by decide) c10j (by decide) (by decide) (by decide)


/-- The heartbeat patch only rewrites status and current_state. -/
theorem applyPatch_hbPatch (j : Instance) (t : State) :
    applyPatch j (hbPatch t) = { j with status := Status.HEALTHY, currentState := t } := rfl

/-- Label matching only reads the labels of the instance. -/
theorem matchesLabels_of_labels_eq (i i2 : Instance) (labels : LabelMap)
    (h : i.labels = i2.labels) : matchesLabels i labels = matchesLabels i2 labels := by
  unfold matchesLabels
  rw [h]

/-- A heartbeat fold over distinct present keys is the uniform patch of those keys. -/
theorem applyHeartbeats_map (names : List String) (p : InstancePatch) (inv : List Instance)
    (hpres : ∀ n ∈ names, ∃ j ∈ inv, instKey j = n)
    (hnodup : names.Nodup) :
    applyHeartbeats inv names p = patchByKeys inv names p := by
  induction names generalizing inv with
  | nil => simp [applyHeartbeats, patchByKeys]
  | cons n rest ih =>
    have hn := hpres n (List.mem_cons_self n rest)
    have hupd : updateInstance inv n p =
        some (inv.map (fun j => if instKey j == n then applyPatch j p else j)) :=
      updateInstance_present inv n p hn
    have hstep : applyHeartbeats inv (n :: rest) p =
        applyHeartbeats (inv.map (fun j => if instKey j == n then applyPatch j p else j))
          rest p := by
      simp [applyHeartbeats, hupd]
    rw [hstep]
    have hpres2 : ∀ m ∈ rest, ∃ j ∈
        inv.map (fun j => if instKey j == n then applyPatch j p else j), instKey j = m := by
      intro m hm
      rcases hpres m (List.mem_cons_of_mem n hm) with ⟨j, hj, hkey⟩
      refine ⟨if instKey j == n then applyPatch j p else j, List.mem_map_of_mem _ hj, ?_⟩
      by_cases hk : (instKey j == n) = true
      · rw [if_pos hk, instKey_applyPatch]
        exact hkey
      · rw [if_neg hk]
        exact hkey
    have hnodup2 : rest.Nodup := (List.nodup_cons.mp hnodup).2
    have hbn : n ∉ rest := (List.nodup_cons.mp hnodup).1
    rw [ih _ hpres2 hnodup2]
    simp only [patchByKeys, List.map_map]
    apply List.map_congr_left
    intro j _
    simp only [Function.comp_apply]
    by_cases hk : (instKey j == n) = true
    · have hkeq : instKey j = n := by simpa using hk
      rw [if_pos hk, instKey_applyPatch]
      rw [if_neg (by rw [hkeq]; exact hbn)]
      rw [if_pos (by rw [hkeq]; exact List.mem_cons_self _ _)]
    · have hkne : instKey j ≠ n := by simpa using hk
      rw [if_neg hk]
      by_cases hm : instKey j ∈ rest
      · rw [if_pos hm, if_pos (List.mem_cons_of_mem _ hm)]
      · rw [if_neg hm, if_neg (by
          rw [List.mem_cons]
          rintro (h | h)
          · exact hkne h
          · exact hm h)]

/-- Patching twice over the same key set composes pointwise. -/
theorem patchByKeys_comp (inv : List Instance) (names : List String) (p q : InstancePatch) :
    patchByKeys (patchByKeys inv names p) names q =
      inv.map (fun j => if instKey j ∈ names then applyPatch (applyPatch j p) q else j) := by
  simp only [patchByKeys, List.map_map]
  apply List.map_congr_left
  intro j _
  simp only [Function.comp_apply]
  by_cases hm : instKey j ∈ names
  · rw [if_pos hm, if_pos (by rw [instKey_applyPatch]; exact hm), if_pos hm]
  · rw [if_neg hm, if_neg hm, if_neg hm]

/-- Mapping a labels-preserving function over the store keeps CountByLabels. -/
theorem countByLabels_map_of_labels (inv : List Instance) (f : Instance → Instance)
    (labels : LabelMap) (h : ∀ j ∈ inv, (f j).labels = j.labels) :
    countByLabels (inv.map f) labels = countByLabels inv labels := by
  unfold countByLabels
  rw [List.filter_map, List.length_map]
  apply congrArg List.length
  apply List.filter_congr
  intro j hj
  exact matchesLabels_of_labels_eq (f j) j labels (h j hj)

/-- No matching FAILED instance means a zero failure count. -/
theorem countFailed_eq_zero (inv : List Instance) (labels : LabelMap) (t : State)
    (h : ∀ i ∈ inv, matchesLabels i labels = true → i.status ≠ Status.FAILED) :
    countFailed inv labels t = 0 := by
  unfold countFailed
  rw [List.length_eq_zero, List.filter_eq_nil_iff]
  intro i hi
  rw [Bool.and_eq_true]
  rintro ⟨hm, hfail⟩
  have : i.status = Status.FAILED := by
    simp only [isFailed, Bool.and_eq_true, beq_iff_eq] at hfail
    exact hfail.2
  exact h i hi hm this

/-- When every matching instance is completed, the completed count equals the
matching count. -/
theorem countCompleted_eq_countByLabels (inv : List Instance) (labels : LabelMap) (t : State)
    (h : ∀ i ∈ inv, matchesLabels i labels = true → isCompleted i t = true) :
    countCompleted inv labels t = countByLabels inv labels := by
  unfold countCompleted countByLabels
  apply congrArg List.length
  apply List.filter_congr
  intro i hi
  by_cases hm : matchesLabels i labels = true
  · rw [hm, h i hi hm]
    rfl
  · have : matchesLabels i labels = false := by
      cases hx : matchesLabels i labels
      · rfl
      · exact absurd hx hm
    rw [this]
    rfl

/-- One ProgressDeployment tick completes the rollout when no matching instance
failed, every matching instance is completed, and the record's total is the
matching count. -/
theorem progressDeployment_completes (record : DeploymentRecord) (inv : List Instance)
    (ds : DeployStore)
    (hF : 1 ≤ record.request.configuration.failureThreshold)
    (hfailz : countFailed inv record.request.labels (targetState record) = 0)
    (hcomp : countCompleted inv record.request.labels (targetState record) =
      countByLabels inv record.request.labels)
    (htot : record.progress.totalMatchingInstances =
      (countByLabels inv record.request.labels : Int))
    (hid : ds.records.any (fun e => e.id == record.id) = true) :
    (progressDeployment record inv ds).record.status = DeploymentStatus.Completed ∧
    (progressDeployment record inv ds).record.progress.completedInstances =
      (progressDeployment record inv ds).record.progress.totalMatchingInstances ∧
    (progressDeployment record inv ds).err = none := by
  have hcond1 : ¬((countFailed inv record.request.labels (targetState record) : Int) ≥
      record.request.configuration.failureThreshold) := by
    rw [hfailz]
    push_cast
    omega
  have htot2 : (progressRefresh record inv).progress.totalMatchingInstances =
      record.progress.totalMatchingInstances := rfl
  have hcond2 : ((countCompleted inv record.request.labels (targetState record) : Int) ≥
      (progressRefresh record inv).progress.totalMatchingInstances) := by
    rw [htot2, htot, hcomp]
  have hrec : (progressRefresh record inv).id = record.id := rfl
  simp only [progressDeployment]
  rw [if_neg hcond1, if_pos hcond2]
  refine ⟨rfl, ?_, ?_⟩
  · show (countCompleted inv record.request.labels (targetState record) : Int) =
      record.progress.totalMatchingInstances
    rw [hcomp, htot]
  · show (dsUpdate ds _).2 = none
    unfold dsUpdate
    split
    · rfl
    · rename_i hx
      exact absurd hid hx


/-- StartDeployment with matches but an empty needing-update pool: complete
immediately with completed = total and persist. -/
theorem startDeployment_empty_pool (record : DeploymentRecord) (inv : List Instance)
    (ds : DeployStore)
    (h0 : ¬(countByLabels inv record.request.labels = 0))
    (hpool : getNeedingUpdate inv record.request.labels (targetState record)
      (some ⟨record.request.configuration.batchSize⟩) = []) :
    startDeployment record inv ds =
      ⟨{ record with
          status := DeploymentStatus.Completed,
          progress := { record.progress with
            totalMatchingInstances := (countByLabels inv record.request.labels : Int),
            completedInstances := (countByLabels inv record.request.labels : Int) } },
        inv,
        (dsUpdate ds { record with
          status := DeploymentStatus.Completed,
          progress := { record.progress with
            totalMatchingInstances := (countByLabels inv record.request.labels : Int),
            completedInstances := (countByLabels inv record.request.labels : Int) } }).1,
        (dsUpdate ds { record with
          status := DeploymentStatus.Completed,
          progress := { record.progress with
            totalMatchingInstances := (countByLabels inv record.request.labels : Int),
            completedInstances := (countByLabels inv record.request.labels : Int) } }).2⟩ := by
  simp only [startDeployment]
  rw [if_neg (by simp only [beq_iff_eq]; exact h0), hpool]
  rfl

/-- StartDeployment with a non-empty pool fitting in the batch: set desired state
on the whole pool, count it in progress and persist. -/
theorem startDeployment_with_pool (record : DeploymentRecord) (inv : List Instance)
    (ds : DeployStore)
    (hkeys : (inv.map instKey).Nodup)
    (hnames : ∀ i ∈ inv, i.name ≠ "")
    (h0 : ¬(countByLabels inv record.request.labels = 0))
    (hN : ((needFilter inv record.request.labels (targetState record)).length : Int) ≤
      record.request.configuration.batchSize)
    (hne : needFilter inv record.request.labels (targetState record) ≠ []) :
    startDeployment record inv ds =
      ⟨addInProgress { record with progress := { record.progress with
            totalMatchingInstances := (countByLabels inv record.request.labels : Int) } }
          (needFilter inv record.request.labels (targetState record)).length,
        patchByKeys inv
          ((needFilter inv record.request.labels (targetState record)).map Instance.name)
          (desiredPatch (targetState record)),
        (dsUpdate ds (addInProgress { record with progress := { record.progress with
            totalMatchingInstances := (countByLabels inv record.request.labels : Int) } }
          (needFilter inv record.request.labels (targetState record)).length)).1,
        (dsUpdate ds (addInProgress { record with progress := { record.progress with
            totalMatchingInstances := (countByLabels inv record.request.labels : Int) } }
          (needFilter inv record.request.labels (targetState record)).length)).2⟩ := by
  have hfull := getNeedingUpdate_full inv record.request.labels (targetState record)
    record.request.configuration.batchSize (Or.inl hN)
  have hpres : ∀ b ∈ needFilter inv record.request.labels (targetState record),
      ∃ j2 ∈ inv, instKey j2 = b.name := by
    intro b hb
    have hbinv : b ∈ inv := List.mem_of_mem_filter hb
    exact ⟨b, hbinv, by simp [instKey, hnames b hbinv]⟩
  have hname_eq : inv.map Instance.name = inv.map instKey :=
    List.map_congr_left (fun x hx => by simp [instKey, hnames x hx])
  have hnodup : ((needFilter inv record.request.labels (targetState record)).map
      Instance.name).Nodup := by
    have h1 : List.Sublist
        ((needFilter inv record.request.labels (targetState record)).map Instance.name)
        (inv.map Instance.name) := List.Sublist.map _ (List.filter_sublist _)
    exact ((hname_eq ▸ hkeys : (inv.map Instance.name).Nodup)).sublist h1
  have hmap := applyBatch_map (needFilter inv record.request.labels (targetState record))
    (targetState record) inv
    { record with progress := { record.progress with
        totalMatchingInstances := (countByLabels inv record.request.labels : Int) } }
    hpres hnodup
  simp only [startDeployment]
  rw [if_neg (by simp only [beq_iff_eq]; exact h0), hfull,
    if_neg (by simpa [List.isEmpty_iff] using hne), hmap]


/-- An instance that does not need the update is already at the target state. -/
theorem needsUpdate_false_eq (j : Instance) (t : State) (h : needsUpdate j t = false) :
    j.currentState = t := by
  simp only [needsUpdate, Bool.or_eq_false_iff, Bool.not_eq_false', beq_iff_eq] at h
  calc j.currentState = ⟨j.currentState.codeVersion, j.currentState.configurationVersion⟩ := rfl
    _ = ⟨t.codeVersion, t.configurationVersion⟩ := by rw [h.1, h.2]
    _ = t := rfl

/-- Completion of an instance at the target state with HEALTHY status. -/
theorem isCompleted_intro (j : Instance) (t : State) (hc : j.currentState = t)
    (hs : j.status = Status.HEALTHY) : isCompleted j t = true := by
  simp [isCompleted, hc, hs]

/-- C7 (amended): after a successful StartDeployment on a request whose N ≤ B
out-of-date matching instances are the only matching instances not already
completed, and whose failure threshold is at least 1, healthy heartbeats for
exactly those N instances followed by one ProgressDeployment yield a Completed
record with completed = total_matching. -/
theorem c7_round_trip (inv0 : List Instance) (req : DeploymentRequest)
    (hkeys : (inv0.map instKey).Nodup)
    (hnames : ∀ i ∈ inv0, i.name ≠ "")
    (hmatch : 0 < countByLabels inv0 req.labels)
    (hN : ((needFilter inv0 req.labels ⟨req.codeVersion, req.configurationVersion⟩).length : Int)
      ≤ req.configuration.batchSize)
    (hF : 1 ≤ req.configuration.failureThreshold)
    (hdone : ∀ i ∈ inv0, matchesLabels i req.labels = true →
      needsUpdate i ⟨req.codeVersion, req.configurationVersion⟩ = false →
      i.status = Status.HEALTHY) :
    (roundTripStart inv0 req).err = none ∧
    (roundTripFinal inv0 req).record.status = DeploymentStatus.Completed ∧
    (roundTripFinal inv0 req).record.progress.completedInstances =
      (roundTripFinal inv0 req).record.progress.totalMatchingInstances ∧
    (roundTripFinal inv0 req).err = none := by
  have h0 : ¬(countByLabels inv0 req.labels = 0) := by omega
  by_cases hE : needFilter inv0 req.labels ⟨req.codeVersion, req.configurationVersion⟩ = []
  · -- every matching instance is already at the target
    have hall : ∀ i ∈ inv0, matchesLabels i req.labels = true →
        needsUpdate i ⟨req.codeVersion, req.configurationVersion⟩ = false := by
      intro i hi hm
      have := List.filter_eq_nil_iff.mp hE i hi
      rw [Bool.and_eq_true] at this
      cases hx : needsUpdate i ⟨req.codeVersion, req.configurationVersion⟩
      · rfl
      · exact absurd ⟨hm, hx⟩ this
    have hrs : roundTripStart inv0 req =
        ⟨⟨"deployment-001", req, DeploymentStatus.Completed,
            ⟨(countByLabels inv0 req.labels : Int), 0, (countByLabels inv0 req.labels : Int), 0⟩⟩,
          inv0,
          ⟨[⟨"deployment-001", req, DeploymentStatus.Completed,
            ⟨(countByLabels inv0 req.labels : Int), 0,
              (countByLabels inv0 req.labels : Int), 0⟩⟩], 2⟩,
          none⟩ := by
      have h1 := startDeployment_empty_pool
        ⟨"deployment-001", req, DeploymentStatus.Running, zeroProgress⟩ inv0
        ⟨[⟨"deployment-001", req, DeploymentStatus.Running, zeroProgress⟩], 2⟩
        h0 (by
          show getNeedingUpdate inv0 req.labels
            ⟨req.codeVersion, req.configurationVersion⟩
            (some ⟨req.configuration.batchSize⟩) = []
          rw [getNeedingUpdate_full _ _ _ _ (Or.inl hN)]
          exact hE)
      rw [roundTripStart, h1]
      rfl
    have hfailz : countFailed inv0 req.labels ⟨req.codeVersion, req.configurationVersion⟩ = 0 :=
      countFailed_eq_zero _ _ _ (fun i hi hm => by
        rw [hdone i hi hm (hall i hi hm)]
        intro hx
        exact Status.noConfusion hx)
    have hcomp : countCompleted inv0 req.labels ⟨req.codeVersion, req.configurationVersion⟩ =
        countByLabels inv0 req.labels :=
      countCompleted_eq_countByLabels _ _ _ (fun i hi hm =>
        isCompleted_intro i _ (needsUpdate_false_eq i _ (hall i hi hm)) (hdone i hi hm (hall i hi hm)))
    have hfin := progressDeployment_completes
      ⟨"deployment-001", req, DeploymentStatus.Completed,
        ⟨(countByLabels inv0 req.labels : Int), 0, (countByLabels inv0 req.labels : Int), 0⟩⟩
      inv0
      ⟨[⟨"deployment-001", req, DeploymentStatus.Completed,
        ⟨(countByLabels inv0 req.labels : Int), 0, (countByLabels inv0 req.labels : Int), 0⟩⟩], 2⟩
      hF hfailz hcomp rfl (by simp)
    have hff : roundTripFinal inv0 req = progressDeployment
        ⟨"deployment-001", req, DeploymentStatus.Completed,
          ⟨(countByLabels inv0 req.labels : Int), 0, (countByLabels inv0 req.labels : Int), 0⟩⟩
        inv0
        ⟨[⟨"deployment-001", req, DeploymentStatus.Completed,
          ⟨(countByLabels inv0 req.labels : Int), 0, (countByLabels inv0 req.labels : Int), 0⟩⟩],
          2⟩ := by
      rw [roundTripFinal, hrs, hE]
      rfl
    rw [hrs, hff]
    exact ⟨rfl, hfin.1, hfin.2.1, hfin.2.2⟩
  · -- a non-empty pool: the first batch covers all N out-of-date instances
    have hpres : ∀ b ∈ needFilter inv0 req.labels ⟨req.codeVersion, req.configurationVersion⟩,
        ∃ j2 ∈ inv0, instKey j2 = b.name := by
      intro b hb
      have hbinv : b ∈ inv0 := List.mem_of_mem_filter hb
      exact ⟨b, hbinv, by simp [instKey, hnames b hbinv]⟩
    have hname_eq : inv0.map Instance.name = inv0.map instKey :=
      List.map_congr_left (fun x hx => by simp [instKey, hnames x hx])
    have hnodupN : ((needFilter inv0 req.labels
        ⟨req.codeVersion, req.configurationVersion⟩).map Instance.name).Nodup := by
      have h1 : List.Sublist
          ((needFilter inv0 req.labels
            ⟨req.codeVersion, req.configurationVersion⟩).map Instance.name)
          (inv0.map Instance.name) := List.Sublist.map _ (List.filter_sublist _)
      exact ((hname_eq ▸ hkeys : (inv0.map Instance.name).Nodup)).sublist h1
    have hrs : roundTripStart inv0 req =
        ⟨addInProgress ⟨"deployment-001", req, DeploymentStatus.Running,
            ⟨(countByLabels inv0 req.labels : Int), 0, 0, 0⟩⟩
            (needFilter inv0 req.labels ⟨req.codeVersion, req.configurationVersion⟩).length,
          patchByKeys inv0
            ((needFilter inv0 req.labels
              ⟨req.codeVersion, req.configurationVersion⟩).map Instance.name)
            (desiredPatch ⟨req.codeVersion, req.configurationVersion⟩),
          (dsUpdate ⟨[⟨"deployment-001", req, DeploymentStatus.Running, zeroProgress⟩], 2⟩
            (addInProgress ⟨"deployment-001", req, DeploymentStatus.Running,
              ⟨(countByLabels inv0 req.labels : Int), 0, 0, 0⟩⟩
              (needFilter inv0 req.labels
                ⟨req.codeVersion, req.configurationVersion⟩).length)).1,
          (dsUpdate ⟨[⟨"deployment-001", req, DeploymentStatus.Running, zeroProgress⟩], 2⟩
            (addInProgress ⟨"deployment-001", req, DeploymentStatus.Running,
              ⟨(countByLabels inv0 req.labels : Int), 0, 0, 0⟩⟩
              (needFilter inv0 req.labels
                ⟨req.codeVersion, req.configurationVersion⟩).length)).2⟩ :=
      startDeployment_with_pool
        ⟨"deployment-001", req, DeploymentStatus.Running, zeroProgress⟩ inv0
        ⟨[⟨"deployment-001", req, DeploymentStatus.Running, zeroProgress⟩], 2⟩
        hkeys hnames h0 hN hE
    have hupd : dsUpdate ⟨[⟨"deployment-001", req, DeploymentStatus.Running, zeroProgress⟩], 2⟩
        (addInProgress ⟨"deployment-001", req, DeploymentStatus.Running,
          ⟨(countByLabels inv0 req.labels : Int), 0, 0, 0⟩⟩
          (needFilter inv0 req.labels
            ⟨req.codeVersion, req.configurationVersion⟩).length) =
        (⟨[addInProgress ⟨"deployment-001", req, DeploymentStatus.Running,
            ⟨(countByLabels inv0 req.labels : Int), 0, 0, 0⟩⟩
            (needFilter inv0 req.labels
              ⟨req.codeVersion, req.configurationVersion⟩).length], 2⟩, none) := rfl
    have hpres2 : ∀ n ∈ (needFilter inv0 req.labels
        ⟨req.codeVersion, req.configurationVersion⟩).map Instance.name,
        ∃ j ∈ patchByKeys inv0
          ((needFilter inv0 req.labels
            ⟨req.codeVersion, req.configurationVersion⟩).map Instance.name)
          (desiredPatch ⟨req.codeVersion, req.configurationVersion⟩), instKey j = n := by
      intro n hn
      rcases List.mem_map.mp hn with ⟨b, hb, rfl⟩
      rcases hpres b hb with ⟨j, hj, hkey⟩
      refine ⟨_, List.mem_map_of_mem _ hj, ?_⟩
      by_cases hm : instKey j ∈ (needFilter inv0 req.labels
          ⟨req.codeVersion, req.configurationVersion⟩).map Instance.name
      · rw [if_pos hm, instKey_applyPatch]
        exact hkey
      · rw [if_neg hm]
        exact hkey
    have hINV : applyHeartbeats
        (patchByKeys inv0
          ((needFilter inv0 req.labels
            ⟨req.codeVersion, req.configurationVersion⟩).map Instance.name)
          (desiredPatch ⟨req.codeVersion, req.configurationVersion⟩))
        ((needFilter inv0 req.labels
          ⟨req.codeVersion, req.configurationVersion⟩).map Instance.name)
        (hbPatch ⟨req.codeVersion, req.configurationVersion⟩) =
        inv0.map (fun j => if instKey j ∈ (needFilter inv0 req.labels
            ⟨req.codeVersion, req.configurationVersion⟩).map Instance.name then
          applyPatch (applyPatch j (desiredPatch ⟨req.codeVersion, req.configurationVersion⟩))
            (hbPatch ⟨req.codeVersion, req.configurationVersion⟩) else j) := by
      rw [applyHeartbeats_map _ _ _ hpres2 hnodupN]
      exact patchByKeys_comp inv0 _ _ _
    have hlab : ∀ j ∈ inv0, ((fun j => if instKey j ∈ (needFilter inv0 req.labels
        ⟨req.codeVersion, req.configurationVersion⟩).map Instance.name then
          applyPatch (applyPatch j (desiredPatch ⟨req.codeVersion, req.configurationVersion⟩))
            (hbPatch ⟨req.codeVersion, req.configurationVersion⟩) else j) j).labels =
        j.labels := by
      intro j _
      simp only []
      by_cases hm : instKey j ∈ (needFilter inv0 req.labels
          ⟨req.codeVersion, req.configurationVersion⟩).map Instance.name
      · rw [if_pos hm]
        rfl
      · rw [if_neg hm]
    have hcbl : countByLabels (inv0.map (fun j => if instKey j ∈ (needFilter inv0 req.labels
        ⟨req.codeVersion, req.configurationVersion⟩).map Instance.name then
          applyPatch (applyPatch j (desiredPatch ⟨req.codeVersion, req.configurationVersion⟩))
            (hbPatch ⟨req.codeVersion, req.configurationVersion⟩) else j)) req.labels =
        countByLabels inv0 req.labels :=
      countByLabels_map_of_labels inv0 _ req.labels hlab
    have hptw : ∀ x ∈ inv0.map (fun j => if instKey j ∈ (needFilter inv0 req.labels
        ⟨req.codeVersion, req.configurationVersion⟩).map Instance.name then
          applyPatch (applyPatch j (desiredPatch ⟨req.codeVersion, req.configurationVersion⟩))
            (hbPatch ⟨req.codeVersion, req.configurationVersion⟩) else j),
        matchesLabels x req.labels = true →
        (x.status = Status.HEALTHY ∧ x.currentState =
          (⟨req.codeVersion, req.configurationVersion⟩ : State)) := by
      intro x hx hmx
      rcases List.mem_map.mp hx with ⟨j, hj, heq⟩
      subst heq
      simp only [] at hmx ⊢
      by_cases hm : instKey j ∈ (needFilter inv0 req.labels
          ⟨req.codeVersion, req.configurationVersion⟩).map Instance.name
      · rw [if_pos hm]
        exact ⟨rfl, rfl⟩
      · rw [if_neg hm] at hmx ⊢
        have hnu : needsUpdate j ⟨req.codeVersion, req.configurationVersion⟩ = false := by
          cases hx2 : needsUpdate j ⟨req.codeVersion, req.configurationVersion⟩
          · rfl
          · exfalso
            apply hm
            have hjneed : j ∈ needFilter inv0 req.labels
                ⟨req.codeVersion, req.configurationVersion⟩ := by
              simp only [needFilter, List.mem_filter]
              exact ⟨hj, by simp [hmx, hx2]⟩
            have hkey0 : instKey j = j.name := by simp [instKey, hnames j hj]
            rw [hkey0]
            exact List.mem_map_of_mem _ hjneed
        exact ⟨hdone j hj hmx hnu, needsUpdate_false_eq j _ hnu⟩
    have hfailz : countFailed (inv0.map (fun j => if instKey j ∈ (needFilter inv0 req.labels
        ⟨req.codeVersion, req.configurationVersion⟩).map Instance.name then
          applyPatch (applyPatch j (desiredPatch ⟨req.codeVersion, req.configurationVersion⟩))
            (hbPatch ⟨req.codeVersion, req.configurationVersion⟩) else j)) req.labels
        ⟨req.codeVersion, req.configurationVersion⟩ = 0 :=
      countFailed_eq_zero _ _ _ (fun x hx hmx => by
        rw [(hptw x hx hmx).1]
        intro hbad
        exact Status.noConfusion hbad)
    have hcomp : countCompleted (inv0.map (fun j => if instKey j ∈ (needFilter inv0 req.labels
        ⟨req.codeVersion, req.configurationVersion⟩).map Instance.name then
          applyPatch (applyPatch j (desiredPatch ⟨req.codeVersion, req.configurationVersion⟩))
            (hbPatch ⟨req.codeVersion, req.configurationVersion⟩) else j)) req.labels
        ⟨req.codeVersion, req.configurationVersion⟩ =
        countByLabels (inv0.map (fun j => if instKey j ∈ (needFilter inv0 req.labels
        ⟨req.codeVersion, req.configurationVersion⟩).map Instance.name then
          applyPatch (applyPatch j (desiredPatch ⟨req.codeVersion, req.configurationVersion⟩))
            (hbPatch ⟨req.codeVersion, req.configurationVersion⟩) else j)) req.labels :=
      countCompleted_eq_countByLabels _ _ _ (fun x hx hmx =>
        isCompleted_intro x _ (hptw x hx hmx).2 (hptw x hx hmx).1)
    have hfin := progressDeployment_completes
      (addInProgress ⟨"deployment-001", req, DeploymentStatus.Running,
        ⟨(countByLabels inv0 req.labels : Int), 0, 0, 0⟩⟩
        (needFilter inv0 req.labels ⟨req.codeVersion, req.configurationVersion⟩).length)
      (inv0.map (fun j => if instKey j ∈ (needFilter inv0 req.labels
        ⟨req.codeVersion, req.configurationVersion⟩).map Instance.name then
          applyPatch (applyPatch j (desiredPatch ⟨req.codeVersion, req.configurationVersion⟩))
            (hbPatch ⟨req.codeVersion, req.configurationVersion⟩) else j))
      ⟨[addInProgress ⟨"deployment-001", req, DeploymentStatus.Running,
          ⟨(countByLabels inv0 req.labels : Int), 0, 0, 0⟩⟩
          (needFilter inv0 req.labels ⟨req.codeVersion, req.configurationVersion⟩).length], 2⟩
      hF hfailz hcomp
      (by
        show (countByLabels inv0 req.labels : Int) = _
        exact congrArg (fun n : Nat => (n : Int)) hcbl.symm)
      (by simp)
    have hff : roundTripFinal inv0 req = progressDeployment
        (addInProgress ⟨"deployment-001", req, DeploymentStatus.Running,
          ⟨(countByLabels inv0 req.labels : Int), 0, 0, 0⟩⟩
          (needFilter inv0 req.labels ⟨req.codeVersion, req.configurationVersion⟩).length)
        (inv0.map (fun j => if instKey j ∈ (needFilter inv0 req.labels
          ⟨req.codeVersion, req.configurationVersion⟩).map Instance.name then
            applyPatch (applyPatch j (desiredPatch ⟨req.codeVersion, req.configurationVersion⟩))
              (hbPatch ⟨req.codeVersion, req.configurationVersion⟩) else j))
        ⟨[addInProgress ⟨"deployment-001", req, DeploymentStatus.Running,
            ⟨(countByLabels inv0 req.labels : Int), 0, 0, 0⟩⟩
            (needFilter inv0 req.labels
              ⟨req.codeVersion, req.configurationVersion⟩).length], 2⟩ := by
      rw [roundTripFinal, hrs, hupd]
      rw [show (⟨(⟨[addInProgress ⟨"deployment-001", req, DeploymentStatus.Running,
          ⟨(countByLabels inv0 req.labels : Int), 0, 0, 0⟩⟩
          (needFilter inv0 req.labels
            ⟨req.codeVersion, req.configurationVersion⟩).length], 2⟩ : DeployStore), none⟩ :
          DeployStore × Option DeployError).1 =
        (⟨[addInProgress ⟨"deployment-001", req, DeploymentStatus.Running,
          ⟨(countByLabels inv0 req.labels : Int), 0, 0, 0⟩⟩
          (needFilter inv0 req.labels
            ⟨req.codeVersion, req.configurationVersion⟩).length], 2⟩ : DeployStore) from rfl]
      rw [hINV]
    rw [hff]
    refine ⟨?_, hfin.1, hfin.2.1, hfin.2.2⟩
    rw [hrs]
    show (dsUpdate _ _).2 = none
    rw [hupd]


/-- C7 counterexample: with failure threshold 0, the very same round trip (one
out-of-date instance, N = 1 ≤ B = 1, StartDeployment succeeds, a healthy
heartbeat, one ProgressDeployment) ends Failed with ErrFailureThresholdExceeded
instead of Completed, because 0 failures already reach the threshold. -/
theorem c7_zero_threshold_round_trip_fails :
    (roundTripStart c7xinv c7xreq).err = none ∧
      ((needFilter c7xinv c7xreq.labels
          ⟨c7xreq.codeVersion, c7xreq.configurationVersion⟩).length : Int) ≤
        c7xreq.configuration.batchSize ∧
      (roundTripFinal c7xinv c7xreq).record.status = DeploymentStatus.Failed ∧
      (roundTripFinal c7xinv c7xreq).err = some DeployError.errFailureThresholdExceeded := by
  decide

/-- C7 witness: the amended round trip evaluated on a two-instance inventory. -/
theorem c7_round_trip_witness :
    (roundTripFinal c7winv c7wreq).record.status = DeploymentStatus.Completed ∧
      (roundTripFinal c7winv c7wreq).record.progress.completedInstances =
        (roundTripFinal c7winv c7wreq).record.progress.totalMatchingInstances :=
  ⟨(c7_round_trip c7winv c7wreq (by decide) (by decide) (by decide) (by decide) (by decide)
      (by decide)).2.1,
    (c7_round_trip c7winv c7wreq (by decide) (by decide) (by decide) (by decide) (by decide)
      (by decide)).2.2.1⟩


/-- C9 (code_bug evaluation): the in-memory Lock never checks whether the key is
already held: while "deployment" is held (after one successful Lock and no
Unlock), a second Lock on the same key also returns success, so two callers can
hold the key simultaneously. -/
theorem c9_second_lock_succeeds :
    (lockerLock [] "deployment").2 = none ∧
      ((lockerLock [] "deployment").1).contains "deployment" = true ∧
      (lockerLock (lockerLock [] "deployment").1 "deployment").2 = none ∧
      ((lockerLock (lockerLock [] "deployment").1 "deployment").1).contains "deployment" =
        true := by
  decide


/-- Replacing by id never changes the stored ids. -/
theorem mapReplace_map_id (recs : List DeploymentRecord) (r : DeploymentRecord) :
    (mapReplace recs r).map DeploymentRecord.id = recs.map DeploymentRecord.id := by
  unfold mapReplace
  rw [List.map_map]
  apply List.map_congr_left
  intro e _
  simp only [Function.comp_apply]
  by_cases h : (e.id == r.id) = true
  · rw [if_pos h]
    exact ((beq_iff_eq).mp h).symm
  · rw [if_neg h]

/-- Replacing by id preserves id uniqueness. -/
theorem keysUnique_mapReplace (recs : List DeploymentRecord) (r : DeploymentRecord)
    (hu : keysUnique recs) : keysUnique (mapReplace recs r) := by
  unfold keysUnique
  rw [mapReplace_map_id]
  exact hu

/-- Map insertion preserves id uniqueness. -/
theorem keysUnique_insertOrReplace (recs : List DeploymentRecord) (r : DeploymentRecord)
    (hu : keysUnique recs) : keysUnique (insertOrReplace recs r) := by
  unfold insertOrReplace
  split
  · exact keysUnique_mapReplace recs r hu
  · rename_i hany
    unfold keysUnique at hu ⊢
    rw [List.map_append]
    simp only [List.map_cons, List.map_nil]
    rw [List.nodup_append]
    refine ⟨hu, List.nodup_singleton _, ?_⟩
    intro x hx hx2
    rcases List.mem_map.mp hx with ⟨e, he, rfl⟩
    simp only [List.mem_singleton] at hx2
    apply hany
    simp only [List.any_eq_true]
    exact ⟨e, he, by simp [hx2]⟩

/-- A running count of zero means no stored record is Running. -/
theorem runningCount_zero (recs : List DeploymentRecord) :
    runningCount recs = 0 ↔ ∀ e ∈ recs, ¬(e.status = DeploymentStatus.Running) := by
  unfold runningCount
  rw [List.length_eq_zero, List.filter_eq_nil_iff]
  constructor
  · intro h e he
    have := h e he
    simpa using this
  · intro h e he
    simpa using h e he

/-- Cons unfolding of the running count. -/
theorem runningCount_cons (x : DeploymentRecord) (l : List DeploymentRecord) :
    runningCount (x :: l) =
      (if x.status = DeploymentStatus.Running then 1 else 0) + runningCount l := by
  unfold runningCount
  rw [List.filter_cons]
  by_cases h : x.status = DeploymentStatus.Running
  · rw [if_pos (by simp [h]), if_pos h]
    simp [Nat.add_comm]
  · rw [if_neg (by simp [h]), if_neg h]
    simp

/-- Mapping a Running-reflecting function does not increase the running count. -/
theorem runningCount_map_le (recs : List DeploymentRecord) (f : DeploymentRecord → DeploymentRecord)
    (h : ∀ e ∈ recs, (f e).status = DeploymentStatus.Running →
      e.status = DeploymentStatus.Running) :
    runningCount (recs.map f) ≤ runningCount recs := by
  induction recs with
  | nil => simp [runningCount]
  | cons a rest ih =>
    have ha := h a (List.mem_cons_self a rest)
    have ihh := ih (fun e he => h e (List.mem_cons_of_mem a he))
    rw [List.map_cons, runningCount_cons, runningCount_cons]
    by_cases h1 : (f a).status = DeploymentStatus.Running
    · rw [if_pos h1, if_pos (ha h1)]
      omega
    · rw [if_neg h1]
      by_cases h2 : a.status = DeploymentStatus.Running
      · rw [if_pos h2]
        omega
      · rw [if_neg h2]
        omega

/-- Replacing a record whose old entry was not Running cannot raise the count. -/
theorem runningCount_mapReplace_nonrunning (recs : List DeploymentRecord)
    (r : DeploymentRecord) (h : ¬(r.status = DeploymentStatus.Running)) :
    runningCount (mapReplace recs r) ≤ runningCount recs := by
  unfold mapReplace
  apply runningCount_map_le
  intro e _ hfe
  by_cases hid : (e.id == r.id) = true
  · rw [if_pos hid] at hfe
    exact absurd hfe h
  · rwa [if_neg hid] at hfe

/-- With unique ids, ids outside the matched one are untouched by mapReplace. -/
theorem mapReplace_no_match (recs : List DeploymentRecord) (r : DeploymentRecord)
    (h : ∀ e ∈ recs, e.id ≠ r.id) : mapReplace recs r = recs := by
  unfold mapReplace
  calc recs.map (fun e => if e.id == r.id then r else e) = recs.map id :=
        List.map_congr_left (fun e he => by rw [if_neg (by simpa using h e he)]; rfl)
    _ = recs := List.map_id recs

/-- With unique ids, replacing the (unique) Running entry cannot raise the count. -/
theorem runningCount_mapReplace_of_running (recs : List DeploymentRecord)
    (r : DeploymentRecord) (hu : keysUnique recs) (e0 : DeploymentRecord)
    (hmem : e0 ∈ recs) (hid : e0.id = r.id)
    (hrun : e0.status = DeploymentStatus.Running) :
    runningCount (mapReplace recs r) ≤ runningCount recs := by
  induction recs with
  | nil => cases hmem
  | cons a rest ih =>
    have hu2 : keysUnique rest := by
      unfold keysUnique at hu ⊢
      exact (List.nodup_cons.mp hu).2
    have hanotin : a.id ∉ rest.map DeploymentRecord.id := by
      unfold keysUnique at hu
      exact (List.nodup_cons.mp hu).1
    rcases List.mem_cons.mp hmem with rfl | hmem2
    · have hrest : mapReplace rest r = rest := by
        apply mapReplace_no_match
        intro b hb hbid
        apply hanotin
        rw [hid, ← hbid]
        exact List.mem_map_of_mem _ hb
      show runningCount (mapReplace (e0 :: rest) r) ≤ runningCount (e0 :: rest)
      unfold mapReplace
      simp only [List.map_cons]
      rw [if_pos (by simp [hid])]
      show runningCount (r :: mapReplace rest r) ≤ runningCount (e0 :: rest)
      rw [hrest, runningCount_cons, runningCount_cons, if_pos hrun]
      by_cases hr : r.status = DeploymentStatus.Running
      · rw [if_pos hr]
      · rw [if_neg hr]
        omega
    · have hane : ¬(a.id == r.id) = true := by
        simp only [beq_iff_eq]
        intro hh
        apply hanotin
        rw [hh, ← hid]
        exact List.mem_map_of_mem _ hmem2
      have ihh := ih hu2 hmem2
      show runningCount (mapReplace (a :: rest) r) ≤ runningCount (a :: rest)
      unfold mapReplace at ihh ⊢
      simp only [List.map_cons]
      rw [if_neg hane]
      rw [runningCount_cons, runningCount_cons]
      by_cases ha : a.status = DeploymentStatus.Running
      · rw [if_pos ha]
        omega
      · rw [if_neg ha]
        omega

/-- With unique ids and no Running entry, an insertion yields at most one. -/
theorem runningCount_mapReplace_le_one (recs : List DeploymentRecord) (r : DeploymentRecord)
    (hu : keysUnique recs) (h0 : runningCount recs = 0) :
    runningCount (mapReplace recs r) ≤ 1 := by
  induction recs with
  | nil => simp [mapReplace, runningCount]
  | cons a rest ih =>
    have hu2 : keysUnique rest := by
      unfold keysUnique at hu ⊢
      exact (List.nodup_cons.mp hu).2
    have hanotin : a.id ∉ rest.map DeploymentRecord.id := by
      unfold keysUnique at hu
      exact (List.nodup_cons.mp hu).1
    have hstat := (runningCount_zero _).mp h0
    have ha : ¬(a.status = DeploymentStatus.Running) := hstat a (List.mem_cons_self a rest)
    have h0rest : runningCount rest = 0 :=
      (runningCount_zero rest).mpr (fun e he => hstat e (List.mem_cons_of_mem a he))
    unfold mapReplace
    simp only [List.map_cons]
    by_cases hid : (a.id == r.id) = true
    · rw [if_pos hid]
      have hrest : mapReplace rest r = rest := by
        apply mapReplace_no_match
        intro b hb hbid
        apply hanotin
        rw [(beq_iff_eq).mp hid, ← hbid]
        exact List.mem_map_of_mem _ hb
      show runningCount (r :: mapReplace rest r) ≤ 1
      rw [hrest, runningCount_cons]
      by_cases hr : r.status = DeploymentStatus.Running
      · rw [if_pos hr]
        omega
      · rw [if_neg hr]
        omega
    · rw [if_neg hid]
      have ihh := ih hu2 h0rest
      show runningCount (a :: mapReplace rest r) ≤ 1
      rw [runningCount_cons, if_neg ha]
      omega

/-- Appending to the records adds the counts. -/
theorem runningCount_append (l1 l2 : List DeploymentRecord) :
    runningCount (l1 ++ l2) = runningCount l1 + runningCount l2 := by
  unfold runningCount
  rw [List.filter_append, List.length_append]


/-- The batch loop never changes the id, request or status of the record. -/
theorem applyBatch_record_fields (batch : List Instance) (t : State) (inv : List Instance)
    (record : DeploymentRecord) :
    (applyBatch batch t inv record).2.1.id = record.id ∧
      (applyBatch batch t inv record).2.1.request = record.request ∧
      (applyBatch batch t inv record).2.1.status = record.status := by
  induction batch generalizing inv record with
  | nil => exact ⟨rfl, rfl, rfl⟩
  | cons i rest ih =>
    unfold applyBatch
    cases updateDesiredState inv i.name t with
    | none => exact ⟨rfl, rfl, rfl⟩
    | some inv2 => exact ih inv2 (incInProgress record)

/-- One Update preserves the store invariant when the new record is not Running
or replaces the Running record. -/
theorem dsUpdate_dsinv (ds : DeployStore) (r : DeploymentRecord)
    (hu : keysUnique ds.records) (hcnt : runningCount ds.records ≤ 1)
    (hok : ¬(r.status = DeploymentStatus.Running) ∨
      ∃ e ∈ ds.records, e.id = r.id ∧ e.status = DeploymentStatus.Running) :
    keysUnique (dsUpdate ds r).1.records ∧ runningCount (dsUpdate ds r).1.records ≤ 1 := by
  unfold dsUpdate
  split
  · constructor
    · exact keysUnique_mapReplace _ _ hu
    · rcases hok with h | ⟨e, he, hid, hrun⟩
      · exact le_trans (runningCount_mapReplace_nonrunning _ _ h) hcnt
      · exact le_trans (runningCount_mapReplace_of_running _ _ hu e he hid hrun) hcnt
  · exact ⟨hu, hcnt⟩

/-- The saved record carries the fresh id and the caller's fields, and lands in
the store; saving onto a store with no Running record keeps at most one. -/
theorem dsSave_facts (ds : DeployStore) (rec : DeploymentRecord)
    (hu : keysUnique ds.records) (h0 : runningCount ds.records = 0) :
    keysUnique (dsSave ds rec).1.records ∧
      runningCount (dsSave ds rec).1.records ≤ 1 ∧
      (dsSave ds rec).2 ∈ (dsSave ds rec).1.records ∧
      (dsSave ds rec).2.status = rec.status ∧
      (dsSave ds rec).2.request = rec.request ∧
      (dsSave ds rec).2.id = generateID ds.nextId := by
  refine ⟨keysUnique_insertOrReplace _ _ hu, ?_, ?_, rfl, rfl, rfl⟩
  · show runningCount (insertOrReplace ds.records _) ≤ 1
    unfold insertOrReplace
    split
    · exact runningCount_mapReplace_le_one _ _ hu h0
    · rw [runningCount_append, h0]
      unfold runningCount
      simp only [List.filter_cons]
      split <;> simp
  · show _ ∈ insertOrReplace ds.records _
    unfold insertOrReplace
    split
    · rename_i hany
      rcases List.any_eq_true.mp hany with ⟨e, he, heq⟩
      unfold mapReplace
      exact List.mem_map.mpr ⟨e, he, by rw [if_pos heq]; rfl⟩
    · exact List.mem_append.mpr (Or.inr (List.mem_cons_self _ _))

/-- The stores StartDeployment can produce: the input store, or one Update with a
record carrying the input's id and request whose status is the input's or
Completed. -/
theorem startDeployment_store_cases (record : DeploymentRecord) (inv : List Instance)
    (ds : DeployStore) :
    (startDeployment record inv ds).store = ds ∨
      ∃ r2 : DeploymentRecord, r2.id = record.id ∧ r2.request = record.request ∧
        (r2.status = record.status ∨ r2.status = DeploymentStatus.Completed) ∧
        (startDeployment record inv ds).store = (dsUpdate ds r2).1 := by
  simp only [startDeployment]
  split
  · exact Or.inl rfl
  · split
    · refine Or.inr ⟨_, ?_, ?_, ?_, rfl⟩
      · rfl
      · rfl
      · exact Or.inr rfl
    · split
      · exact Or.inl rfl
      · rename_i inv2 rec2 hab
        have hf := applyBatch_record_fields
          (getNeedingUpdate inv record.request.labels (targetState record)
            (some ⟨record.request.configuration.batchSize⟩))
          (targetState record) inv
          { record with progress := { record.progress with
              totalMatchingInstances := (countByLabels inv record.request.labels : Int) } }
        rw [hab] at hf
        exact Or.inr ⟨rec2, hf.1, hf.2.1, Or.inl hf.2.2, rfl⟩

/-- The stores ProgressDeployment can produce, in the same format. -/
theorem progressDeployment_store_cases (record : DeploymentRecord) (inv : List Instance)
    (ds : DeployStore) :
    (progressDeployment record inv ds).store = ds ∨
      ∃ r2 : DeploymentRecord, r2.id = record.id ∧ r2.request = record.request ∧
        (r2.status = record.status ∨ r2.status = DeploymentStatus.Completed) ∧
        (progressDeployment record inv ds).store = (dsUpdate ds r2).1 := by
  simp only [progressDeployment]
  split
  · exact Or.inl rfl
  · split
    · refine Or.inr ⟨_, ?_, ?_, ?_, rfl⟩
      · rfl
      · rfl
      · exact Or.inr rfl
    · split
      · refine Or.inr ⟨_, ?_, ?_, ?_, rfl⟩
        · rfl
        · rfl
        · exact Or.inl rfl
      · split
        · exact Or.inl rfl
        · rename_i inv2 rec2 hab
          have hf := applyBatch_record_fields
            (getNeedingUpdate inv record.request.labels (targetState record)
              (some ⟨record.request.configuration.batchSize -
                (progressRefresh record inv).progress.inProgressInstances⟩))
            (targetState record) inv (progressRefresh record inv)
          rw [hab] at hf
          exact Or.inr ⟨rec2, hf.1, hf.2.1, Or.inl hf.2.2, rfl⟩

/-- Below the failure threshold the tick never reports it. -/
theorem progressDeployment_err_ne_threshold (record : DeploymentRecord) (inv : List Instance)
    (ds : DeployStore)
    (hf : ¬((countFailed inv record.request.labels (targetState record) : Int) ≥
      record.request.configuration.failureThreshold)) :
    (progressDeployment record inv ds).err ≠
      some DeployError.errFailureThresholdExceeded := by
  simp only [progressDeployment, hf, if_false]
  split
  · exact dsUpdate_err_ne ds _ _ (by decide)
  · split
    · exact dsUpdate_err_ne ds _ _ (by decide)
    · rcases hab : applyBatch (getNeedingUpdate inv record.request.labels
          (targetState record) (some ⟨record.request.configuration.batchSize -
            (progressRefresh record inv).progress.inProgressInstances⟩))
          (targetState record) inv (progressRefresh record inv) with ⟨inv2, rec2, e⟩
      cases e with
      | none =>
        rcases applyBatch_err _ _ _ _ with he | he <;> rw [hab] at he <;> simp at he
        rcases dsUpdate_err ds rec2 with hu | hu <;> simp [hab, hu]
      | some ex =>
        rcases applyBatch_err _ _ _ _ with he | he <;> rw [hab] at he <;> simp at he <;>
          simp [hab, he]

/-- A reported threshold breach marks the record Failed and leaves the store
untouched. -/
theorem progressDeployment_threshold (record : DeploymentRecord) (inv : List Instance)
    (ds : DeployStore)
    (h : (progressDeployment record inv ds).err =
      some DeployError.errFailureThresholdExceeded) :
    (progressDeployment record inv ds).record.status = DeploymentStatus.Failed ∧
      (progressDeployment record inv ds).store = ds := by
  by_cases hf : ((countFailed inv record.request.labels (targetState record) : Int) ≥
      record.request.configuration.failureThreshold)
  · constructor <;> simp [progressDeployment, hf]
  · exact absurd h (progressDeployment_err_ne_threshold record inv ds hf)


/-- The record just saved is a member of the store Save returns. -/
theorem dsSave_mem (ds : DeployStore) (rec : DeploymentRecord) :
    (dsSave ds rec).2 ∈ (dsSave ds rec).1.records := by
  show _ ∈ insertOrReplace ds.records _
  unfold insertOrReplace
  split
  · rename_i hany
    rcases List.any_eq_true.mp hany with ⟨e, he, heq⟩
    unfold mapReplace
    exact List.mem_map.mpr ⟨e, he, by rw [if_pos heq]; rfl⟩
  · exact List.mem_append.mpr (Or.inr (List.mem_cons_self _ _))

/-- Updating with a record whose id is already present keeps it in the store. -/
theorem dsUpdate_mem (ds : DeployStore) (r e : DeploymentRecord)
    (he : e ∈ ds.records) (hid : e.id = r.id) : r ∈ (dsUpdate ds r).1.records := by
  unfold dsUpdate
  have hany : (ds.records.any fun e2 => e2.id == r.id) = true :=
    List.any_eq_true.mpr ⟨e, he, (beq_iff_eq).mpr hid⟩
  rw [if_pos hany]
  show r ∈ mapReplace ds.records r
  unfold mapReplace
  exact List.mem_map.mpr ⟨e, he, by rw [if_pos ((beq_iff_eq).mpr hid)]⟩

/-- After flipping every Running record to Failed, nothing is Running. -/
theorem flip_not_running (recs : List DeploymentRecord) :
    ∀ e ∈ recs.map (fun r => if r.status == DeploymentStatus.Running
        then { r with status := DeploymentStatus.Failed } else r),
      e.status ≠ DeploymentStatus.Running := by
  intro e he
  rcases List.mem_map.mp he with ⟨r, _, heq⟩
  subst heq
  by_cases hr : r.status = DeploymentStatus.Running
  · rw [if_pos ((beq_iff_eq).mpr hr)]
    simp
  · rw [if_neg (fun hb => hr ((beq_iff_eq).mp hb))]
    exact hr

/-- Flipping Running records to Failed brings the Running count to zero. -/
theorem runningCount_flip (recs : List DeploymentRecord) :
    runningCount (recs.map (fun r => if r.status == DeploymentStatus.Running
      then { r with status := DeploymentStatus.Failed } else r)) = 0 := by
  unfold runningCount
  rw [List.length_eq_zero, List.filter_eq_nil_iff]
  intro a ha
  simpa using flip_not_running recs a ha

/-- Flipping statuses does not touch the ids, so uniqueness survives. -/
theorem keysUnique_flip (recs : List DeploymentRecord) (hu : keysUnique recs) :
    keysUnique (recs.map (fun r => if r.status == DeploymentStatus.Running
      then { r with status := DeploymentStatus.Failed } else r)) := by
  unfold keysUnique at *
  rw [List.map_map]
  have h : (DeploymentRecord.id ∘ fun r => if r.status == DeploymentStatus.Running
      then { r with status := DeploymentStatus.Failed } else r) = DeploymentRecord.id := by
    funext r
    simp only [Function.comp_apply]
    split <;> rfl
  rw [h]
  exact hu

/-- A false isRolloutInProgress means no Running record at all. -/
theorem isRolloutInProgress_eq_false (ds : DeployStore)
    (h : isRolloutInProgress ds = false) : runningCount ds.records = 0 := by
  unfold isRolloutInProgress getByStatus at h
  unfold runningCount
  simp only [decide_eq_false_iff_not, not_lt, Nat.le_zero] at h
  exact h

/-- A singleton GetByStatus(Running) answer is a Running member of the store. -/
theorem getByStatus_running_mem (ds : DeployStore) (r0 : DeploymentRecord)
    (h : getByStatus ds DeploymentStatus.Running = [r0]) :
    r0 ∈ ds.records ∧ r0.status = DeploymentStatus.Running := by
  have hm : r0 ∈ getByStatus ds DeploymentStatus.Running := by
    rw [h]; exact List.mem_cons_self r0 []
  unfold getByStatus at hm
  rcases List.mem_filter.mp hm with ⟨h1, h2⟩
  exact ⟨h1, (beq_iff_eq).mp h2⟩

/-- The store invariant survives any outcome of the shape produced by the two
strategy store-cases lemmas, provided a Running input record is itself stored. -/
theorem dsinv_from_cases (record : DeploymentRecord) (ds st : DeployStore)
    (hu : keysUnique ds.records) (hcnt : runningCount ds.records ≤ 1)
    (hmem : record.status = DeploymentStatus.Running →
      ∃ e ∈ ds.records, e.id = record.id ∧ e.status = DeploymentStatus.Running)
    (hc : st = ds ∨ ∃ r2 : DeploymentRecord, r2.id = record.id ∧ r2.request = record.request ∧
      (r2.status = record.status ∨ r2.status = DeploymentStatus.Completed) ∧
      st = (dsUpdate ds r2).1) :
    keysUnique st.records ∧ runningCount st.records ≤ 1 := by
  rcases hc with rfl | ⟨r2, hid, _, hst, rfl⟩
  · exact ⟨hu, hcnt⟩
  · refine dsUpdate_dsinv ds r2 hu hcnt ?_
    rcases hst with hst | hst
    · by_cases hr : record.status = DeploymentStatus.Running
      · rcases hmem hr with ⟨e, he, hei, hes⟩
        exact Or.inr ⟨e, he, by rw [hei, hid], hes⟩
      · exact Or.inl (by rw [hst]; exact hr)
    · exact Or.inl (by rw [hst]; decide)

/-- TriggerDeployment preserves the store invariant. -/
theorem triggerDeployment_dsinv (s : SystemState) (req : DeploymentRequest)
    (hu : keysUnique s.dstore.records) (hcnt : runningCount s.dstore.records ≤ 1) :
    keysUnique (triggerDeployment s req).state.dstore.records ∧
      runningCount (triggerDeployment s req).state.dstore.records ≤ 1 := by
  simp only [triggerDeployment]
  split
  · exact ⟨hu, hcnt⟩
  · split
    · exact ⟨hu, hcnt⟩
    · rename_i hrun
      have h0 : runningCount s.dstore.records = 0 :=
        isRolloutInProgress_eq_false s.dstore (by simpa using hrun)
      have hsv := dsSave_facts s.dstore ⟨"", req, DeploymentStatus.Running, zeroProgress⟩ hu h0
      exact dsinv_from_cases (dsSave s.dstore ⟨"", req, DeploymentStatus.Running, zeroProgress⟩).2
        (dsSave s.dstore ⟨"", req, DeploymentStatus.Running, zeroProgress⟩).1
        (startDeployment (dsSave s.dstore ⟨"", req, DeploymentStatus.Running, zeroProgress⟩).2
          s.inv (dsSave s.dstore ⟨"", req, DeploymentStatus.Running, zeroProgress⟩).1).store
        hsv.1 hsv.2.1
        (fun _ => ⟨(dsSave s.dstore ⟨"", req, DeploymentStatus.Running, zeroProgress⟩).2,
          hsv.2.2.1, rfl, hsv.2.2.2.1⟩)
        (startDeployment_store_cases _ _ _)

/-- The rollback core preserves the store invariant (the flip step alone already
clears all Running records before the fresh save). -/
theorem triggerRollbackCore_dsinv (s : SystemState) (labels : LabelMap) (config : Configuration)
    (hu : keysUnique s.dstore.records) :
    keysUnique (triggerRollbackCore s labels config).state.dstore.records ∧
      runningCount (triggerRollbackCore s labels config).state.dstore.records ≤ 1 := by
  simp only [triggerRollbackCore]
  have hu1 : keysUnique (s.dstore.records.map (fun r =>
      if r.status == DeploymentStatus.Running then { r with status := DeploymentStatus.Failed }
      else r)) := keysUnique_flip s.dstore.records hu
  have h01 : runningCount (s.dstore.records.map (fun r =>
      if r.status == DeploymentStatus.Running then { r with status := DeploymentStatus.Failed }
      else r)) = 0 := runningCount_flip s.dstore.records
  split
  · refine ⟨hu1, ?_⟩
    show runningCount (s.dstore.records.map (fun r =>
      if r.status == DeploymentStatus.Running then { r with status := DeploymentStatus.Failed }
      else r)) ≤ 1
    rw [h01]
    decide
  · rename_i prev heq
    have hsv := dsSave_facts
      ⟨s.dstore.records.map (fun r => if r.status == DeploymentStatus.Running
        then { r with status := DeploymentStatus.Failed } else r), s.dstore.nextId⟩
      ⟨"", ⟨prev.request.codeVersion, prev.request.configurationVersion, labels, config⟩,
        DeploymentStatus.Running, zeroProgress⟩ hu1 h01
    exact dsinv_from_cases _ _ _ hsv.1 hsv.2.1
      (fun _ => ⟨_, hsv.2.2.1, rfl, hsv.2.2.2.1⟩)
      (startDeployment_store_cases
        (dsSave ⟨s.dstore.records.map (fun r => if r.status == DeploymentStatus.Running
          then { r with status := DeploymentStatus.Failed } else r), s.dstore.nextId⟩
          ⟨"", ⟨prev.request.codeVersion, prev.request.configurationVersion, labels, config⟩,
            DeploymentStatus.Running, zeroProgress⟩).2
        (resetFailedInstances s.inv labels)
        (dsSave ⟨s.dstore.records.map (fun r => if r.status == DeploymentStatus.Running
          then { r with status := DeploymentStatus.Failed } else r), s.dstore.nextId⟩
          ⟨"", ⟨prev.request.codeVersion, prev.request.configurationVersion, labels, config⟩,
            DeploymentStatus.Running, zeroProgress⟩).1)

/-- The trigger tick preserves the store invariant. -/
theorem progressTrigger_dsinv (s : SystemState)
    (hu : keysUnique s.dstore.records) (hcnt : runningCount s.dstore.records ≤ 1) :
    keysUnique (progressTrigger s).state.dstore.records ∧
      runningCount (progressTrigger s).state.dstore.records ≤ 1 := by
  simp only [progressTrigger]
  split
  · exact ⟨hu, hcnt⟩
  · rename_i r0 heq
    split
    · rename_i hthr
      have hth := progressDeployment_threshold r0 s.inv s.dstore ((beq_iff_eq).mp hthr)
      rw [hth.2]
      have hupd := dsUpdate_dsinv s.dstore (progressDeployment r0 s.inv s.dstore).record hu hcnt
        (Or.inl (by rw [hth.1]; decide))
      exact triggerRollbackCore_dsinv
        ⟨(dsUpdate s.dstore (progressDeployment r0 s.inv s.dstore).record).1,
          (progressDeployment r0 s.inv s.dstore).inv, (lockerLock s.locks lockKey).1⟩
        r0.request.labels r0.request.configuration hupd.1
    · have hm := getByStatus_running_mem s.dstore r0 heq
      exact dsinv_from_cases r0 s.dstore (progressDeployment r0 s.inv s.dstore).store hu hcnt
        (fun _ => ⟨r0, hm.1, rfl, hm.2⟩) (progressDeployment_store_cases r0 s.inv s.dstore)
  · exact ⟨hu, hcnt⟩

/-- The locked rollback entry point preserves the store invariant. -/
theorem triggerRollback_dsinv (s : SystemState) (labels : LabelMap) (config : Configuration)
    (hu : keysUnique s.dstore.records) :
    keysUnique (triggerRollback s labels config).state.dstore.records ∧
      runningCount (triggerRollback s labels config).state.dstore.records ≤ 1 :=
  triggerRollbackCore_dsinv ⟨s.dstore, s.inv, (lockerLock s.locks lockKey).1⟩ labels config hu

/-- Every reachable state keeps unique ids and at most one Running record. -/
theorem dsinv_reachable (s : SystemState) (h : Reachable s) :
    keysUnique s.dstore.records ∧ runningCount s.dstore.records ≤ 1 := by
  induction h with
  | init => exact ⟨List.nodup_nil, by decide⟩
  | register s i h ih => exact ih
  | heartbeat s key p h ih => exact ih
  | deploy s req h ih => exact triggerDeployment_dsinv s req ih.1 ih.2
  | tick s h ih => exact progressTrigger_dsinv s ih.1 ih.2
  | rollback s labels config h ih => exact triggerRollback_dsinv s labels config ih.1


/-- C4: when the deployment store already holds a Running record, TriggerDeployment
on a valid request returns ErrRolloutInProgress and leaves the deployment store
unchanged (no record is saved); and in every state reachable from the empty
stores by registration, heartbeats, TriggerDeployment, the trigger tick and
TriggerRollback, at most one deployment record has status Running. -/
theorem c4_single_flight :
    (∀ (s : SystemState) (req : DeploymentRequest),
      req.codeVersion ≠ "" → isRolloutInProgress s.dstore = true →
        (triggerDeployment s req).err = some DeployError.errRolloutInProgress ∧
          (triggerDeployment s req).state.dstore = s.dstore) ∧
    ∀ s : SystemState, Reachable s → runningCount s.dstore.records ≤ 1 := by
  constructor
  · intro s req hvalid hrun
    simp only [triggerDeployment]
    rw [if_neg (fun hb => hvalid ((beq_iff_eq).mp hb)), if_pos hrun]
    exact ⟨rfl, rfl⟩
  · intro s h
    exact (dsinv_reachable s h).2

/-- C4 witness: a concrete store with one Running record rejects a valid deploy
request without touching the store, and the initial reachable state has at most
one Running record. -/
theorem c4_single_flight_witness :
    (c4req.codeVersion ≠ "" ∧ isRolloutInProgress c4state.dstore = true ∧
      (triggerDeployment c4state c4req).err = some DeployError.errRolloutInProgress ∧
      (triggerDeployment c4state c4req).state.dstore = c4state.dstore) ∧
    (Reachable ⟨⟨[], 1⟩, [], []⟩ ∧
      runningCount (⟨⟨[], 1⟩, [], []⟩ : SystemState).dstore.records ≤ 1) := by
  constructor
  · exact ⟨by decide, by decide,
      (c4_single_flight.1 c4state c4req (by decide) (by decide)).1,
      (c4_single_flight.1 c4state c4req (by decide) (by decide)).2⟩
  · exact ⟨Reachable.init, c4_single_flight.2 _ Reachable.init⟩


/-- Filtering for Completed records commutes with flipping Running to Failed. -/
theorem filter_flip_completed (labels : LabelMap) (recs : List DeploymentRecord) :
    (recs.map (fun r => if r.status == DeploymentStatus.Running
        then { r with status := DeploymentStatus.Failed } else r)).filter
      (fun r => recordMatchesLabels r labels && r.status == DeploymentStatus.Completed) =
      recs.filter
        (fun r => recordMatchesLabels r labels && r.status == DeploymentStatus.Completed) := by
  induction recs with
  | nil => rfl
  | cons r rest ih =>
    simp only [List.map_cons, List.filter_cons]
    by_cases hr : r.status = DeploymentStatus.Running
    · rw [if_pos ((beq_iff_eq).mpr hr)]
      have h1 : (recordMatchesLabels { r with status := DeploymentStatus.Failed } labels &&
          ({ r with status := DeploymentStatus.Failed } : DeploymentRecord).status ==
            DeploymentStatus.Completed) = false := by
        simp
      have h2 : (recordMatchesLabels r labels && r.status == DeploymentStatus.Completed)
          = false := by
        rw [hr]
        simp
      rw [h1, h2]
      simpa using ih
    · rw [if_neg (fun hb => hr ((beq_iff_eq).mp hb))]
      by_cases hc : (recordMatchesLabels r labels && r.status == DeploymentStatus.Completed)
          = true
      · rw [hc]
        simpa using congrArg (List.cons r) ih
      · rw [eq_false_of_ne_true hc]
        simpa using ih

/-- StartDeployment never reports a missing previous deployment. -/
theorem startDeployment_err_ne (record : DeploymentRecord) (inv : List Instance)
    (ds : DeployStore) :
    (startDeployment record inv ds).err ≠ some DeployError.errNoPreviousDeploymentFound := by
  simp only [startDeployment]
  split
  · simp
  · split
    · exact dsUpdate_err_ne ds _ _ (by decide)
    · split
      · rename_i inv2 rec2 e heq
        have hb := applyBatch_err_ne (getNeedingUpdate inv record.request.labels
          (targetState record) (some ⟨record.request.configuration.batchSize⟩))
          (targetState record) inv
          { record with progress := { record.progress with
              totalMatchingInstances := (countByLabels inv record.request.labels : Int) } }
          DeployError.errNoPreviousDeploymentFound (by decide)
        rw [heq] at hb
        exact hb
      · rename_i inv2 rec2 heq
        exact dsUpdate_err_ne ds _ _ (by decide)

/-- A successful desired-state patch leaves every label map and status as some
original instance had them. -/
theorem updateDesiredState_statuses (inv : List Instance) (key : String) (t : State)
    (inv2 : List Instance) (h : updateDesiredState inv key t = some inv2) :
    ∀ j ∈ inv2, ∃ i ∈ inv, j.labels = i.labels ∧ j.status = i.status := by
  unfold updateDesiredState updateInstance at h
  by_cases hany : (inv.any fun i => instKey i == key) = true
  · rw [if_pos hany] at h
    have h2 := Option.some_inj.mp h
    subst h2
    intro j hj
    rcases List.mem_map.mp hj with ⟨i, hi, heq⟩
    refine ⟨i, hi, ?_⟩
    subst heq
    by_cases hk : (instKey i == key) = true
    · rw [if_pos hk, applyPatch_desiredPatch]
      exact ⟨rfl, rfl⟩
    · rw [if_neg hk]
      exact ⟨rfl, rfl⟩
  · rw [if_neg hany] at h
    exact absurd h (by simp)

/-- Every instance the batch loop leaves behind has the label map and status of
some instance of the input inventory. -/
theorem applyBatch_inv_statuses (batch : List Instance) (t : State) (inv : List Instance)
    (record : DeploymentRecord) :
    ∀ j ∈ (applyBatch batch t inv record).1, ∃ i ∈ inv, j.labels = i.labels ∧
      j.status = i.status := by
  induction batch generalizing inv record with
  | nil => exact fun j hj => ⟨j, hj, rfl, rfl⟩
  | cons b rest ih =>
    unfold applyBatch
    cases hup : updateDesiredState inv b.name t with
    | none => exact fun j hj => ⟨j, hj, rfl, rfl⟩
    | some inv2 =>
      intro j hj
      rcases ih inv2 (incInProgress record) j hj with ⟨i2, hi2, hl, hs⟩
      rcases updateDesiredState_statuses inv b.name t inv2 hup i2 hi2 with ⟨i, hi, hl2, hs2⟩
      exact ⟨i, hi, hl.trans hl2, hs.trans hs2⟩

/-- Every instance in the inventory StartDeployment returns has the label map and
status of some instance of the input inventory. -/
theorem startDeployment_inv_statuses (record : DeploymentRecord) (inv : List Instance)
    (ds : DeployStore) :
    ∀ j ∈ (startDeployment record inv ds).inv, ∃ i ∈ inv, j.labels = i.labels ∧
      j.status = i.status := by
  simp only [startDeployment]
  split
  · exact fun j hj => ⟨j, hj, rfl, rfl⟩
  · split
    · exact fun j hj => ⟨j, hj, rfl, rfl⟩
    · split
      · rename_i inv2 rec2 e heq
        have hs := applyBatch_inv_statuses (getNeedingUpdate inv record.request.labels
          (targetState record) (some ⟨record.request.configuration.batchSize⟩))
          (targetState record) inv
          { record with progress := { record.progress with
              totalMatchingInstances := (countByLabels inv record.request.labels : Int) } }
        rw [heq] at hs
        exact hs
      · rename_i inv2 rec2 heq
        have hs := applyBatch_inv_statuses (getNeedingUpdate inv record.request.labels
          (targetState record) (some ⟨record.request.configuration.batchSize⟩))
          (targetState record) inv
          { record with progress := { record.progress with
              totalMatchingInstances := (countByLabels inv record.request.labels : Int) } }
        rw [heq] at hs
        exact hs

/-- After ResetFailedInstances, no instance matching the labels is FAILED. -/
theorem resetFailedInstances_ok (inv : List Instance) (labels : LabelMap) :
    ∀ j ∈ resetFailedInstances inv labels, matchesLabels j labels = true →
      j.status ≠ Status.FAILED := by
  intro j hj
  rcases List.mem_map.mp hj with ⟨i, _, heq⟩
  subst heq
  by_cases hc : (matchesLabels i labels && i.status == Status.FAILED) = true
  · rw [if_pos hc]
    intro _
    simp
  · rw [if_neg hc]
    intro hm hf
    exact hc (by rw [hm, (beq_iff_eq).mpr hf]; rfl)

/-- Replacing one record preserves any property shared by the store and the new
record. -/
theorem mapReplace_forall (P : DeploymentRecord → Prop) (recs : List DeploymentRecord)
    (r : DeploymentRecord) (hrecs : ∀ e ∈ recs, P e) (hr : P r) :
    ∀ e ∈ mapReplace recs r, P e := by
  intro e he
  rcases List.mem_map.mp he with ⟨e0, he0, heq⟩
  subst heq
  by_cases hk : (e0.id == r.id) = true
  · rw [if_pos hk]; exact hr
  · rw [if_neg hk]; exact hrecs e0 he0

/-- Go-map insertion preserves any property shared by the store and the inserted
record. -/
theorem insertOrReplace_forall (P : DeploymentRecord → Prop) (recs : List DeploymentRecord)
    (r : DeploymentRecord) (hrecs : ∀ e ∈ recs, P e) (hr : P r) :
    ∀ e ∈ insertOrReplace recs r, P e := by
  unfold insertOrReplace
  split
  · exact mapReplace_forall P recs r hrecs hr
  · intro e he
    rcases List.mem_append.mp he with he | he
    · exact hrecs e he
    · rw [List.mem_singleton.mp he]
      exact hr

/-- Update preserves any property shared by the store and the updated record. -/
theorem dsUpdate_forall (P : DeploymentRecord → Prop) (ds : DeployStore)
    (r : DeploymentRecord) (hrecs : ∀ e ∈ ds.records, P e) (hr : P r) :
    ∀ e ∈ (dsUpdate ds r).1.records, P e := by
  unfold dsUpdate
  split
  · exact mapReplace_forall P ds.records r hrecs hr
  · exact hrecs


/-- The rollback core: missing-previous error exactly on an empty Completed
match; otherwise the fresh record carries the previous versions with the
supplied labels and configuration, only the fresh record can be Running, and no
matching instance stays FAILED. -/
theorem triggerRollbackCore_spec (s : SystemState) (labels : LabelMap)
    (config : Configuration) :
    ((triggerRollbackCore s labels config).err =
        some DeployError.errNoPreviousDeploymentFound ↔
      getByLabelsAndStatus s.dstore labels DeploymentStatus.Completed = []) ∧
    (∀ prev : DeploymentRecord,
      (getByLabelsAndStatus s.dstore labels DeploymentStatus.Completed).getLast? = some prev →
      (∃ r ∈ (triggerRollbackCore s labels config).state.dstore.records,
        r.id = generateID s.dstore.nextId ∧
        r.request = ⟨prev.request.codeVersion, prev.request.configurationVersion, labels,
          config⟩ ∧
        (r.status = DeploymentStatus.Running ∨ r.status = DeploymentStatus.Completed)) ∧
      ∀ r ∈ (triggerRollbackCore s labels config).state.dstore.records,
        r.status = DeploymentStatus.Running → r.id = generateID s.dstore.nextId) ∧
    ∀ j ∈ (triggerRollbackCore s labels config).state.inv,
      matchesLabels j labels = true → j.status ≠ Status.FAILED := by
  have hflip : getByLabelsAndStatus
      (⟨s.dstore.records.map (fun r => if r.status == DeploymentStatus.Running
        then { r with status := DeploymentStatus.Failed } else r),
        s.dstore.nextId⟩ : DeployStore) labels DeploymentStatus.Completed =
      getByLabelsAndStatus s.dstore labels DeploymentStatus.Completed :=
    filter_flip_completed labels s.dstore.records
  simp only [triggerRollbackCore]
  split
  · rename_i heq
    have hnil : getByLabelsAndStatus s.dstore labels DeploymentStatus.Completed = [] :=
      hflip.symm.trans (List.getLast?_eq_none_iff.mp heq)
    refine ⟨iff_of_true rfl hnil, ?_, ?_⟩
    · intro prev hp
      rw [hnil] at hp
      exact Option.noConfusion hp
    · exact resetFailedInstances_ok s.inv labels
  · rename_i prev2 heq
    have horig : (getByLabelsAndStatus s.dstore labels DeploymentStatus.Completed).getLast?
        = some prev2 := (congrArg List.getLast? hflip).symm.trans heq
    have hne : getByLabelsAndStatus s.dstore labels DeploymentStatus.Completed ≠ [] := by
      intro hx
      rw [hx] at horig
      exact Option.noConfusion horig
    refine ⟨iff_of_false (startDeployment_err_ne _ _ _) hne, ?_, ?_⟩
    · intro prev hp
      have hpe : prev2 = prev := Option.some_inj.mp (horig.symm.trans hp)
      subst hpe
      have hsavedmem : (dsSave
          (⟨s.dstore.records.map (fun r => if r.status == DeploymentStatus.Running
            then { r with status := DeploymentStatus.Failed } else r),
            s.dstore.nextId⟩ : DeployStore)
          ⟨"", ⟨prev2.request.codeVersion, prev2.request.configurationVersion, labels, config⟩,
            DeploymentStatus.Running, zeroProgress⟩).2 ∈ (dsSave
          (⟨s.dstore.records.map (fun r => if r.status == DeploymentStatus.Running
            then { r with status := DeploymentStatus.Failed } else r),
            s.dstore.nextId⟩ : DeployStore)
          ⟨"", ⟨prev2.request.codeVersion, prev2.request.configurationVersion, labels, config⟩,
            DeploymentStatus.Running, zeroProgress⟩).1.records := dsSave_mem _ _
      have hP1 : ∀ e ∈ s.dstore.records.map (fun r3 => if r3.status == DeploymentStatus.Running
          then { r3 with status := DeploymentStatus.Failed } else r3),
          e.status = DeploymentStatus.Running → e.id = generateID s.dstore.nextId :=
        fun e he hrun => absurd hrun (flip_not_running s.dstore.records e he)
      have hP2 : (dsSave
          (⟨s.dstore.records.map (fun r3 => if r3.status == DeploymentStatus.Running
            then { r3 with status := DeploymentStatus.Failed } else r3),
            s.dstore.nextId⟩ : DeployStore)
          ⟨"", ⟨prev2.request.codeVersion, prev2.request.configurationVersion, labels, config⟩,
            DeploymentStatus.Running, zeroProgress⟩).2.status = DeploymentStatus.Running →
          (dsSave
          (⟨s.dstore.records.map (fun r3 => if r3.status == DeploymentStatus.Running
            then { r3 with status := DeploymentStatus.Failed } else r3),
            s.dstore.nextId⟩ : DeployStore)
          ⟨"", ⟨prev2.request.codeVersion, prev2.request.configurationVersion, labels, config⟩,
            DeploymentStatus.Running, zeroProgress⟩).2.id = generateID s.dstore.nextId :=
        fun _ => rfl
      have hP3 : ∀ e ∈ (dsSave
          (⟨s.dstore.records.map (fun r3 => if r3.status == DeploymentStatus.Running
            then { r3 with status := DeploymentStatus.Failed } else r3),
            s.dstore.nextId⟩ : DeployStore)
          ⟨"", ⟨prev2.request.codeVersion, prev2.request.configurationVersion, labels, config⟩,
            DeploymentStatus.Running, zeroProgress⟩).1.records,
          e.status = DeploymentStatus.Running → e.id = generateID s.dstore.nextId :=
        insertOrReplace_forall _ _ _ hP1 hP2
      rcases startDeployment_store_cases (dsSave
          (⟨s.dstore.records.map (fun r => if r.status == DeploymentStatus.Running
            then { r with status := DeploymentStatus.Failed } else r),
            s.dstore.nextId⟩ : DeployStore)
          ⟨"", ⟨prev2.request.codeVersion, prev2.request.configurationVersion, labels, config⟩,
            DeploymentStatus.Running, zeroProgress⟩).2
          (resetFailedInstances s.inv labels)
          (dsSave
          (⟨s.dstore.records.map (fun r => if r.status == DeploymentStatus.Running
            then { r with status := DeploymentStatus.Failed } else r),
            s.dstore.nextId⟩ : DeployStore)
          ⟨"", ⟨prev2.request.codeVersion, prev2.request.configurationVersion, labels, config⟩,
            DeploymentStatus.Running, zeroProgress⟩).1
        with hcase | ⟨r2, hid, hreq, hst, hcase⟩
      · constructor
        · refine ⟨(dsSave
            (⟨s.dstore.records.map (fun r3 => if r3.status == DeploymentStatus.Running
              then { r3 with status := DeploymentStatus.Failed } else r3),
              s.dstore.nextId⟩ : DeployStore)
            ⟨"", ⟨prev2.request.codeVersion, prev2.request.configurationVersion, labels,
              config⟩, DeploymentStatus.Running, zeroProgress⟩).2, ?_, rfl, rfl, Or.inl rfl⟩
          show _ ∈ (startDeployment _ (resetFailedInstances s.inv labels) _).store.records
          rw [hcase]
          exact hsavedmem
        · intro r hr hrun
          have hr2 : r ∈ (startDeployment (dsSave
              (⟨s.dstore.records.map (fun r3 => if r3.status == DeploymentStatus.Running
                then { r3 with status := DeploymentStatus.Failed } else r3),
                s.dstore.nextId⟩ : DeployStore)
              ⟨"", ⟨prev2.request.codeVersion, prev2.request.configurationVersion, labels,
                config⟩, DeploymentStatus.Running, zeroProgress⟩).2
              (resetFailedInstances s.inv labels)
              (dsSave
              (⟨s.dstore.records.map (fun r3 => if r3.status == DeploymentStatus.Running
                then { r3 with status := DeploymentStatus.Failed } else r3),
                s.dstore.nextId⟩ : DeployStore)
              ⟨"", ⟨prev2.request.codeVersion, prev2.request.configurationVersion, labels,
                config⟩, DeploymentStatus.Running, zeroProgress⟩).1).store.records := hr
          rw [hcase] at hr2
          exact hP3 r hr2 hrun
      · have hP4 : ∀ e ∈ (dsUpdate (dsSave
            (⟨s.dstore.records.map (fun r3 => if r3.status == DeploymentStatus.Running
              then { r3 with status := DeploymentStatus.Failed } else r3),
              s.dstore.nextId⟩ : DeployStore)
            ⟨"", ⟨prev2.request.codeVersion, prev2.request.configurationVersion, labels,
              config⟩, DeploymentStatus.Running, zeroProgress⟩).1 r2).1.records,
            e.status = DeploymentStatus.Running → e.id = generateID s.dstore.nextId :=
          dsUpdate_forall
            (fun e => e.status = DeploymentStatus.Running →
              e.id = generateID s.dstore.nextId) _ r2 hP3 (fun _ => hid)
        constructor
        · refine ⟨r2, ?_, hid, hreq, ?_⟩
          · show r2 ∈ (startDeployment _ (resetFailedInstances s.inv labels) _).store.records
            rw [hcase]
            exact dsUpdate_mem _ r2 _ hsavedmem hid.symm
          · rcases hst with hst | hst
            · exact Or.inl hst
            · exact Or.inr hst
        · intro r hr hrun
          have hr2 : r ∈ (startDeployment (dsSave
              (⟨s.dstore.records.map (fun r3 => if r3.status == DeploymentStatus.Running
                then { r3 with status := DeploymentStatus.Failed } else r3),
                s.dstore.nextId⟩ : DeployStore)
              ⟨"", ⟨prev2.request.codeVersion, prev2.request.configurationVersion, labels,
                config⟩, DeploymentStatus.Running, zeroProgress⟩).2
              (resetFailedInstances s.inv labels)
              (dsSave
              (⟨s.dstore.records.map (fun r3 => if r3.status == DeploymentStatus.Running
                then { r3 with status := DeploymentStatus.Failed } else r3),
                s.dstore.nextId⟩ : DeployStore)
              ⟨"", ⟨prev2.request.codeVersion, prev2.request.configurationVersion, labels,
                config⟩, DeploymentStatus.Running, zeroProgress⟩).1).store.records := hr
          rw [hcase] at hr2
          exact hP4 r hr2 hrun
    · intro j hj hm
      have hj2 : j ∈ (startDeployment (dsSave
          (⟨s.dstore.records.map (fun r3 => if r3.status == DeploymentStatus.Running
            then { r3 with status := DeploymentStatus.Failed } else r3),
            s.dstore.nextId⟩ : DeployStore)
          ⟨"", ⟨prev2.request.codeVersion, prev2.request.configurationVersion, labels, config⟩,
            DeploymentStatus.Running, zeroProgress⟩).2
          (resetFailedInstances s.inv labels)
          (dsSave
          (⟨s.dstore.records.map (fun r3 => if r3.status == DeploymentStatus.Running
            then { r3 with status := DeploymentStatus.Failed } else r3),
            s.dstore.nextId⟩ : DeployStore)
          ⟨"", ⟨prev2.request.codeVersion, prev2.request.configurationVersion, labels, config⟩,
            DeploymentStatus.Running, zeroProgress⟩).1).inv := hj
      rcases startDeployment_inv_statuses _ _ _ j hj2 with ⟨i, hi, hl, hs⟩
      have hmi : matchesLabels i labels = true :=
        (matchesLabels_of_labels_eq j i labels hl).symm.trans hm
      intro hf
      exact resetFailedInstances_ok s.inv labels i hi hmi (hs.symm.trans hf)


/-- C5: TriggerRollback returns ErrNoPreviousDeploymentFound exactly when no
Completed record matches the supplied labels; otherwise, with `prev` the most
recent matching Completed record, the final store contains a record under the
fresh id whose request carries prev's code and configuration versions with the
supplied labels and configuration (Running, or Completed when the restart
finished at once), every Running record carries the fresh id (the old Running
record was flipped to Failed), and no instance matching the labels is left
FAILED. -/
theorem c5_rollback (s : SystemState) (labels : LabelMap) (config : Configuration) :
    ((triggerRollback s labels config).err =
        some DeployError.errNoPreviousDeploymentFound ↔
      getByLabelsAndStatus s.dstore labels DeploymentStatus.Completed = []) ∧
    (∀ prev : DeploymentRecord,
      (getByLabelsAndStatus s.dstore labels DeploymentStatus.Completed).getLast? = some prev →
      (∃ r ∈ (triggerRollback s labels config).state.dstore.records,
        r.id = generateID s.dstore.nextId ∧
        r.request = ⟨prev.request.codeVersion, prev.request.configurationVersion, labels,
          config⟩ ∧
        (r.status = DeploymentStatus.Running ∨ r.status = DeploymentStatus.Completed)) ∧
      ∀ r ∈ (triggerRollback s labels config).state.dstore.records,
        r.status = DeploymentStatus.Running → r.id = generateID s.dstore.nextId) ∧
    ∀ j ∈ (triggerRollback s labels config).state.inv,
      matchesLabels j labels = true → j.status ≠ Status.FAILED :=
  triggerRollbackCore_spec ⟨s.dstore, s.inv, (lockerLock s.locks lockKey).1⟩ labels config

/-- C5 witness: a store with one matching Completed record and one matching
FAILED instance; the rollback stores the rebuilt request under the fresh id, and
everything the theorem promises evaluates on it. -/
theorem c5_rollback_witness :
    (getByLabelsAndStatus c5state.dstore [("env", "prod")] DeploymentStatus.Completed).getLast?
        = some c5prev ∧
    ((∃ r ∈ (triggerRollback c5state [("env", "prod")] c5config).state.dstore.records,
        r.id = generateID c5state.dstore.nextId ∧
        r.request = ⟨c5prev.request.codeVersion, c5prev.request.configurationVersion,
          [("env", "prod")], c5config⟩ ∧
        (r.status = DeploymentStatus.Running ∨ r.status = DeploymentStatus.Completed)) ∧
      ∀ r ∈ (triggerRollback c5state [("env", "prod")] c5config).state.dstore.records,
        r.status = DeploymentStatus.Running → r.id = generateID c5state.dstore.nextId) :=
  ⟨by decide, (c5_rollback c5state [("env", "prod")] c5config).2.1 c5prev (by decide)⟩

end Dides
